import Mathlib

/-!
Verification development for the StanX prediction-market order-matching
engine (Anchor program), shallowly embedded from the Rust sources:
`programs/stanx/src/instructions/limitorder.rs`, `marketorder.rs`,
`cancelorder.rs`, the shared state in `state/mod.rs` and the constant
`MAX_ORDERS_PER_SIDE` in `constants.rs`.

Modelling conventions:
* `u64` values are embedded as `Nat`; Rust's `checked_add` / `checked_sub` /
  `checked_mul` / `checked_div` become `cAdd` / `cSub` / `cMul` / `cDiv`
  returning `Option Nat`, with the `u64` range bound made explicit.
* Solana `Pubkey`s are embedded as `Nat`; the default (all-zero) pubkey is
  `0`.  The `find_program_address` derivation of a user-stats PDA is
  injective in the owner key, so the scan of `remaining_accounts` for the
  counter-party's stats PDA is modelled as a scan for the entry whose
  `user` field is the counter-party's key.
* SPL token accounts are embedded as bare `Nat` balances; a CPI
  `token::transfer` fails exactly when the source balance is insufficient
  (`TransferFailed` stands for the SPL error propagated by `?`).
  Destination overflow is not modelled: SPL supply caps make it
  unreachable.
* Anchor account constraints (seeds, mint and owner checks) are enforced
  before the handler body runs; they are modelled by the shape of the
  state records, so the handlers assume them.
* `Clock::get()?.unix_timestamp` is passed in as the `now` argument.
* A handler returning `Except.error` models a failed Solana transaction;
  the runtime discards every account write of a failed transaction.
-/

namespace StanX

/-- The largest value representable in a Rust `u64`. -/
def U64MAX : Nat := 2 ^ 64 - 1

/-- Rust `u64::checked_add`. -/
def cAdd (a b : Nat) : Option Nat :=
  if a + b ≤ U64MAX then some (a + b) else none

/-- Rust `u64::checked_sub`. -/
def cSub (a b : Nat) : Option Nat :=
  if b ≤ a then some (a - b) else none

/-- Rust `u64::checked_mul`. -/
def cMul (a b : Nat) : Option Nat :=
  if a * b ≤ U64MAX then some (a * b) else none

/-- Rust `u64::checked_div` (fails only on division by zero). -/
def cDiv (a b : Nat) : Option Nat :=
  if b = 0 then none else some (a / b)

/-- The error codes of `error.rs` that the embedded handlers can raise,
plus `TransferFailed` standing for a failed SPL-token CPI. -/
inductive PErr where
  | MarketExpired
  | MarketAlreadySettled
  | InvalidIterationLimit
  | InvalidOrderQuantity
  | InvalidOrderPrice
  | MathOverflow
  | NotEnoughBalance
  | SellerStatsAccountNotProvided
  | BuyerStatsAccountNotProvided
  | NotAuthorized
  | OrdernotFound
  | OutcomeAccountRequired
  | TransferFailed
deriving DecidableEq, Repr

/-- Convert a Rust `Option` produced by checked arithmetic (or an Anchor
`Option` account) into the handler's `Result`, as `ok_or` does. -/
def liftO {α : Type} (o : Option α) (e : PErr) : Except PErr α :=
  match o with
  | some a => .ok a
  | none => .error e

/-- `OrderSide` from `state/mod.rs`. -/
inductive OrderSide where
  | Buy
  | Sell
deriving DecidableEq, Repr

/-- `TokenType` from `state/mod.rs`. -/
inductive TokenType where
  | Yes
  | No
deriving DecidableEq, Repr

/-- `Order` from `state/mod.rs`. -/
structure Order where
  id : Nat
  market_id : Nat
  user_key : Nat
  side : OrderSide
  token_type : TokenType
  price : Nat
  quantity : Nat
  filledquantity : Nat
  timestamp : Int
deriving DecidableEq, Repr

/-- The fields of `Market` from `state/mod.rs` that the matching engine
reads or writes (mints, vault addresses and metadata are account-level
constraints, modelled away). -/
structure Market where
  market_id : Nat
  settlement_deadline : Int
  is_settled : Bool
  total_collateral_locked : Nat
deriving DecidableEq, Repr

/-- `UserStats` from `state/mod.rs` (the per-user per-market ledger). -/
structure UserStats where
  user : Nat
  market_id : Nat
  claimable_yes : Nat
  locked_yes : Nat
  claimable_no : Nat
  locked_no : Nat
  claimable_collateral : Nat
  locked_collateral : Nat
  reward_claimed : Bool
deriving DecidableEq, Repr

/-- `OrderBook` from `state/mod.rs`. -/
structure OrderBook where
  market_id : Nat
  next_order_id : Nat
  yes_buy_orders : List Order
  yes_sell_orders : List Order
  no_buy_orders : List Order
  no_sell_orders : List Order
deriving DecidableEq, Repr

/-- `MAX_ORDERS_PER_SIDE` from `constants.rs`. -/
def MAX_ORDERS_PER_SIDE : Nat := 100

/-- The queue an incoming `(token_type, side)` order matches against
(`limitorder.rs` lines 267-272, `marketorder.rs` lines 234-239). -/
def matchingQueue (ob : OrderBook) (tt : TokenType) (side : OrderSide) : List Order :=
  match tt, side with
  | .Yes, .Buy => ob.yes_sell_orders
  | .Yes, .Sell => ob.yes_buy_orders
  | .No, .Buy => ob.no_sell_orders
  | .No, .Sell => ob.no_buy_orders

/-- Write back the queue selected by `matchingQueue`. -/
def setMatchingQueue (ob : OrderBook) (tt : TokenType) (side : OrderSide)
    (q : List Order) : OrderBook :=
  match tt, side with
  | .Yes, .Buy => { ob with yes_sell_orders := q }
  | .Yes, .Sell => { ob with yes_buy_orders := q }
  | .No, .Buy => { ob with no_sell_orders := q }
  | .No, .Sell => { ob with no_buy_orders := q }

/-- The queue a `(token_type, side)` remainder would rest on
(`limitorder.rs` lines 562-567). -/
def restingQueue (ob : OrderBook) (tt : TokenType) (side : OrderSide) : List Order :=
  match tt, side with
  | .Yes, .Buy => ob.yes_buy_orders
  | .Yes, .Sell => ob.yes_sell_orders
  | .No, .Buy => ob.no_buy_orders
  | .No, .Sell => ob.no_sell_orders

/-- Write back the queue selected by `restingQueue`. -/
def setRestingQueue (ob : OrderBook) (tt : TokenType) (side : OrderSide)
    (q : List Order) : OrderBook :=
  match tt, side with
  | .Yes, .Buy => { ob with yes_buy_orders := q }
  | .Yes, .Sell => { ob with yes_sell_orders := q }
  | .No, .Buy => { ob with no_buy_orders := q }
  | .No, .Sell => { ob with no_sell_orders := q }

/-- An SPL token transfer of `amt` from a source balance to a destination
balance; fails exactly when the source is insufficient. -/
def transferTok (src dst amt : Nat) : Except PErr (Nat × Nat) :=
  if src < amt then .error .TransferFailed else .ok (src - amt, dst + amt)

/-- Scan a list of user-stats accounts for the first one owned by `key`
(the model of the `remaining_accounts` scan for the counter-party's
stats PDA), apply the mutation `f` to it, and report whether a matching
account was found, mirroring the `for`-loop-plus-flag pattern of
`limitorder.rs` lines 401-434 / 490-523 and `marketorder.rs`
lines 330-363 / 380-413. -/
def creditFirst (key : Nat) (f : UserStats → Except PErr UserStats) :
    List UserStats → Except PErr (List UserStats × Bool)
  | [] => .ok ([], false)
  | a :: tl =>
    if a.user = key then do
      let a' ← f a
      .ok (a' :: tl, true)
    else do
      let (tl', found) ← creditFirst key f tl
      .ok (a :: tl', found)

/-- The mutation applied to the resting seller's stats when an incoming
buyer (or a market buy) fills against it: credit the trade value to
claimable collateral and release the filled quantity from the locked
outcome balance (`limitorder.rs` lines 407-426, `marketorder.rs`
lines 338-356). -/
def sellerCredit (tt : TokenType) (collateral_amount min_qty : Nat)
    (st : UserStats) : Except PErr UserStats := do
  let cc ← liftO (cAdd st.claimable_collateral collateral_amount) .MathOverflow
  match tt with
  | .Yes => do
      let v ← liftO (cSub st.locked_yes min_qty) .MathOverflow
      pure { st with claimable_collateral := cc, locked_yes := v }
  | .No => do
      let v ← liftO (cSub st.locked_no min_qty) .MathOverflow
      pure { st with claimable_collateral := cc, locked_no := v }

/-- The mutation applied to the resting buyer's stats when an incoming
seller (or a market sell) fills against it: credit the filled quantity
to the claimable outcome balance and release the trade value from
locked collateral (`limitorder.rs` lines 496-515, `marketorder.rs`
lines 388-405). -/
def buyerCredit (tt : TokenType) (collateral_amount min_qty : Nat)
    (st : UserStats) : Except PErr UserStats := do
  let st ← match tt with
    | .Yes => do
        let v ← liftO (cAdd st.claimable_yes min_qty) .MathOverflow
        pure { st with claimable_yes := v }
    | .No => do
        let v ← liftO (cAdd st.claimable_no min_qty) .MathOverflow
        pure { st with claimable_no := v }
  let v ← liftO (cSub st.locked_collateral collateral_amount) .MathOverflow
  pure { st with locked_collateral := v }

/-- One recorded fill of a matching walk: the resting order's id and
owner, the price the trade executed at, and the filled quantity
(the data of the per-trade `msg!` log lines). -/
structure Fill where
  order_id : Nat
  owner : Nat
  price : Nat
  qty : Nat
deriving DecidableEq, Repr

/-- The accounts mutated by `PlaceOrder::handler` (`limitorder.rs`):
market, order book, the requester's stats and token balances, the
escrows and vault, and the caller-supplied counter-party stats accounts.
The outcome token accounts are optional, as in the `Accounts` struct. -/
structure PlaceSt where
  market : Market
  orderbook : OrderBook
  user_stats_account : UserStats
  user_collateral : Nat
  user_outcome_yes : Option Nat
  user_outcome_no : Option Nat
  collateral_vault : Nat
  yes_escrow : Nat
  no_escrow : Nat
  remaining_accounts : List UserStats
deriving DecidableEq, Repr

/-- The data of the `OrderPlaced` event plus the walk's trade log:
the new order's id, the fills applied, and the iterations consumed. -/
structure PlaceResult where
  order_id : Nat
  fills : List Fill
  iterations : Nat
deriving DecidableEq, Repr

/-- Trade settlement for one fill of size `min_qty` between the incoming
`order` and the resting order `b` (`limitorder.rs` lines 320-536):
updates both filled quantities, credits the incoming user's stats, and
credits the counter-party's stats found among `remaining_accounts`.
Returns the updated incoming order, the updated resting order, and the
updated state. -/
def applyMatch (tt : TokenType) (isBuy : Bool)
    (order b : Order) (min_qty : Nat) (s : PlaceSt) :
    Except PErr (Order × Order × PlaceSt) := do
  let bookFilled ← liftO (cAdd b.filledquantity min_qty) .MathOverflow
  let b' : Order := { b with filledquantity := bookFilled }
  let ourFilled ← liftO (cAdd order.filledquantity min_qty) .MathOverflow
  let order' : Order := { order with filledquantity := ourFilled }
  let collateral_amount ← liftO (cMul min_qty b.price) .MathOverflow
  if isBuy then do
    let locked_at_our_price ← liftO (cMul min_qty order.price) .MathOverflow
    let surplus ← liftO (cSub locked_at_our_price collateral_amount) .MathOverflow
    let us := s.user_stats_account
    let us ← match tt with
      | .Yes => do
          let v ← liftO (cAdd us.claimable_yes min_qty) .MathOverflow
          pure { us with claimable_yes := v }
      | .No => do
          let v ← liftO (cAdd us.claimable_no min_qty) .MathOverflow
          pure { us with claimable_no := v }
    let lc ← liftO (cSub us.locked_collateral locked_at_our_price) .MathOverflow
    let s := { s with user_stats_account := { us with locked_collateral := lc } }
    let s ← if 0 < surplus then do
        let cc ← liftO (cAdd s.user_stats_account.claimable_collateral surplus) .MathOverflow
        let tl ← liftO (cSub s.market.total_collateral_locked surplus) .MathOverflow
        pure { s with user_stats_account.claimable_collateral := cc,
                      market.total_collateral_locked := tl }
      else pure s
    let (rem, seller_credited) ←
      creditFirst b.user_key (sellerCredit tt collateral_amount min_qty) s.remaining_accounts
    if seller_credited then do
      let s := { s with remaining_accounts := rem }
      let tl ← liftO (cSub s.market.total_collateral_locked collateral_amount) .MathOverflow
      pure (order', b', { s with market.total_collateral_locked := tl })
    else .error .SellerStatsAccountNotProvided
  else do
    let us := s.user_stats_account
    let cc ← liftO (cAdd us.claimable_collateral collateral_amount) .MathOverflow
    let us := { us with claimable_collateral := cc }
    let us ← match tt with
      | .Yes => do
          let v ← liftO (cSub us.locked_yes min_qty) .MathOverflow
          pure { us with locked_yes := v }
      | .No => do
          let v ← liftO (cSub us.locked_no min_qty) .MathOverflow
          pure { us with locked_no := v }
    let s := { s with user_stats_account := us }
    let (rem, buyer_credited) ←
      creditFirst b.user_key (buyerCredit tt collateral_amount min_qty) s.remaining_accounts
    if buyer_credited then
      pure (order', b', { s with remaining_accounts := rem })
    else .error .BuyerStatsAccountNotProvided

/-- The matching walk of `PlaceOrder::handler` (`limitorder.rs`
lines 263-551).  `kept` holds, in reverse, the queue entries before the
cursor `idx`; `rest` is the queue from the cursor on.  Returns the final
queue, the incoming order, the iterations consumed, the fill log and the
state. -/
def matchLoop (userKey : Nat) (tt : TokenType) (isBuy : Bool) (maxIter : Nat)
    (order : Order) (iteration : Nat) (fills : List Fill)
    (kept rest : List Order) (s : PlaceSt) :
    Except PErr (List Order × Order × Nat × List Fill × PlaceSt) :=
  match rest with
  | [] => .ok (kept.reverse, order, iteration, fills, s)
  | b :: tl =>
    if iteration < maxIter then
      let price_matches : Bool :=
        if isBuy then decide (b.price ≤ order.price) else decide (order.price ≤ b.price)
      if price_matches then
        if b.user_key = userKey then
          matchLoop userKey tt isBuy maxIter order iteration fills (b :: kept) tl s
        else do
          let our_left_qty ← liftO (cSub order.quantity order.filledquantity) .MathOverflow
          let book_left_qty ← liftO (cSub b.quantity b.filledquantity) .MathOverflow
          let min_qty := min our_left_qty book_left_qty
          if our_left_qty = 0 then
            .ok (kept.reverse ++ b :: tl, order, iteration, fills, s)
          else if book_left_qty = 0 then
            matchLoop userKey tt isBuy maxIter order iteration fills kept tl s
          else do
            let (order', b', s') ← applyMatch tt isBuy order b min_qty s
            let fills' := fills ++ [⟨b.id, b.user_key, b.price, min_qty⟩]
            if b'.quantity ≤ b'.filledquantity then
              matchLoop userKey tt isBuy maxIter order' (iteration + 1) fills' kept tl s'
            else
              matchLoop userKey tt isBuy maxIter order' (iteration + 1) fills' (b' :: kept) tl s'
      else
        .ok (kept.reverse ++ b :: tl, order, iteration, fills, s)
    else
      .ok (kept.reverse ++ b :: tl, order, iteration, fills, s)

/-- Remainder handling after the walk (`limitorder.rs` lines 553-632):
if the order is not fully filled, either convert the unfilled
reservation to claimable balance (queue at capacity) or rest the order
on its queue, keeping buy queues sorted by descending and sell queues by
ascending price.  Rust's `Vec::sort_by` is a stable sort; it is embedded
as the kernel-computable stable sort `List.insertionSort` with the same
comparator (`b.price.cmp(&a.price)` keeps `a` before `b` exactly when
`b.price ≤ a.price`, and symmetrically for the sell side). -/
def handleRemainder (tt : TokenType) (side : OrderSide) (order : Order)
    (s : PlaceSt) : Except PErr PlaceSt := do
  if order.filledquantity < order.quantity then do
    let unfilled_qty ← liftO (cSub order.quantity order.filledquantity) .MathOverflow
    let order_vec := restingQueue s.orderbook tt side
    if MAX_ORDERS_PER_SIDE ≤ order_vec.length then
      if side = .Buy then do
        let unfilled_collateral ← liftO (cMul unfilled_qty order.price) .MathOverflow
        let lc ← liftO (cSub s.user_stats_account.locked_collateral unfilled_collateral) .MathOverflow
        let cc ← liftO (cAdd s.user_stats_account.claimable_collateral unfilled_collateral) .MathOverflow
        pure { s with user_stats_account.locked_collateral := lc,
                      user_stats_account.claimable_collateral := cc }
      else
        match tt with
        | .Yes => do
            let l ← liftO (cSub s.user_stats_account.locked_yes unfilled_qty) .MathOverflow
            let c ← liftO (cAdd s.user_stats_account.claimable_yes unfilled_qty) .MathOverflow
            pure { s with user_stats_account.locked_yes := l,
                          user_stats_account.claimable_yes := c }
        | .No => do
            let l ← liftO (cSub s.user_stats_account.locked_no unfilled_qty) .MathOverflow
            let c ← liftO (cAdd s.user_stats_account.claimable_no unfilled_qty) .MathOverflow
            pure { s with user_stats_account.locked_no := l,
                          user_stats_account.claimable_no := c }
    else
      let sorted :=
        if side = .Buy then
          (order_vec ++ [order]).insertionSort (fun a b => b.price ≤ a.price)
        else
          (order_vec ++ [order]).insertionSort (fun a b => a.price ≤ b.price)
      pure { s with orderbook := setRestingQueue s.orderbook tt side sorted }
  else
    pure s

/-- The per-side reservation step of `PlaceOrder::handler`
(`limitorder.rs` lines 170-244): a Sell moves `quantity` outcome tokens
to escrow and locks them, a Buy moves `amount = quantity * price`
collateral to the vault and locks it. -/
def placeReserve (side : OrderSide) (tt : TokenType)
    (quantity amount : Nat) (s : PlaceSt) : Except PErr PlaceSt := do
  if side = .Sell then do
    let bal ← match tt with
      | .Yes => liftO s.user_outcome_yes .OutcomeAccountRequired
      | .No => liftO s.user_outcome_no .OutcomeAccountRequired
    if bal < quantity then .error .NotEnoughBalance
    match tt with
    | .Yes => do
        let (ub, eb) ← transferTok bal s.yes_escrow quantity
        let s := { s with user_outcome_yes := some ub, yes_escrow := eb }
        let v ← liftO (cAdd s.user_stats_account.locked_yes quantity) .MathOverflow
        pure { s with user_stats_account.locked_yes := v }
    | .No => do
        let (ub, eb) ← transferTok bal s.no_escrow quantity
        let s := { s with user_outcome_no := some ub, no_escrow := eb }
        let v ← liftO (cAdd s.user_stats_account.locked_no quantity) .MathOverflow
        pure { s with user_stats_account.locked_no := v }
  else do
    if s.user_collateral < amount then .error .NotEnoughBalance
    let (ub, vb) ← transferTok s.user_collateral s.collateral_vault amount
    let s := { s with user_collateral := ub, collateral_vault := vb }
    let v ← liftO (cAdd s.user_stats_account.locked_collateral amount) .MathOverflow
    let t ← liftO (cAdd s.market.total_collateral_locked amount) .MathOverflow
    pure { s with user_stats_account.locked_collateral := v,
                  market.total_collateral_locked := t }

/-- The admission guards, lazy stats initialisation and up-front
reservation of `PlaceOrder::handler` (`limitorder.rs` lines 111-244):
a Sell locks `quantity` outcome tokens in escrow, a Buy locks
`quantity * price` collateral in the vault. -/
def placePrep (now : Int) (userKey : Nat) (market_id : Nat)
    (side : OrderSide) (tt : TokenType)
    (quantity price max_iteration : Nat) (s : PlaceSt) :
    Except PErr PlaceSt := do
  if s.market.settlement_deadline ≤ now then .error .MarketExpired
  if s.market.is_settled then .error .MarketAlreadySettled
  if max_iteration = 0 then .error .InvalidIterationLimit
  if quantity = 0 then .error .InvalidOrderQuantity
  if price = 0 then .error .InvalidOrderPrice
  let s := if s.user_stats_account.user = 0 then
      { s with user_stats_account :=
          { user := userKey, market_id := market_id,
            locked_yes := 0, claimable_yes := 0, locked_no := 0, claimable_no := 0,
            locked_collateral := 0, claimable_collateral := 0,
            reward_claimed := s.user_stats_account.reward_claimed } }
    else s
  let amount ← liftO (cMul quantity price) .MathOverflow
  placeReserve side tt quantity amount s

/-- `PlaceOrder::handler` (`limitorder.rs` lines 96-652): admission
guards and reservation (`placePrep`), order creation, the matching walk
(`matchLoop`), and remainder handling (`handleRemainder`). -/
def placeOrder (now : Int) (userKey : Nat) (market_id : Nat)
    (side : OrderSide) (tt : TokenType)
    (quantity price max_iteration : Nat) (s : PlaceSt) :
    Except PErr (PlaceSt × PlaceResult) := do
  let s ← placePrep now userKey market_id side tt quantity price max_iteration s
  let order : Order :=
    { id := s.orderbook.next_order_id, market_id := s.market.market_id,
      user_key := userKey, side := side, token_type := tt, price := price,
      quantity := quantity, filledquantity := 0, timestamp := now }
  let nid ← liftO (cAdd s.orderbook.next_order_id 1) .MathOverflow
  let s := { s with orderbook.next_order_id := nid }
  let isBuy : Bool := side == OrderSide.Buy
  let (q', order', iters, fills, s) ←
    matchLoop userKey tt isBuy max_iteration order 0 [] []
      (matchingQueue s.orderbook tt side) s
  let s := { s with orderbook := setMatchingQueue s.orderbook tt side q' }
  let s ← handleRemainder tt side order' s
  pure (s, { order_id := order.id, fills := fills, iterations := iters })

/-- Remove the first order with the given id from a queue, keeping the
rest in place (`Vec::remove` at the `position` hit). -/
def extractById (oid : Nat) : List Order → Option (Order × List Order)
  | [] => none
  | o :: tl =>
    if o.id = oid then some (o, tl)
    else (extractById oid tl).map (fun p => (p.1, o :: p.2))

/-- The sequential four-queue scan of `CancelOrder::handler`
(`cancelorder.rs` lines 96-134): yes-buy, then yes-sell, then no-buy,
then no-sell.  Returns the removed order, its side and token type, and
the book with the order removed. -/
def removeOrderById (ob : OrderBook) (oid : Nat) :
    Option (Order × OrderSide × TokenType × OrderBook) :=
  match extractById oid ob.yes_buy_orders with
  | some (o, q) => some (o, .Buy, .Yes, { ob with yes_buy_orders := q })
  | none =>
    match extractById oid ob.yes_sell_orders with
    | some (o, q) => some (o, .Sell, .Yes, { ob with yes_sell_orders := q })
    | none =>
      match extractById oid ob.no_buy_orders with
      | some (o, q) => some (o, .Buy, .No, { ob with no_buy_orders := q })
      | none =>
        match extractById oid ob.no_sell_orders with
        | some (o, q) => some (o, .Sell, .No, { ob with no_sell_orders := q })
        | none => none

/-- The accounts mutated by `CancelOrder::handler` (`cancelorder.rs`). -/
structure CancelSt where
  market : Market
  orderbook : OrderBook
  user_stats_account : UserStats
  user_collateral : Nat
  user_outcome_yes : Option Nat
  user_outcome_no : Option Nat
  collateral_vault : Nat
  yes_escrow : Nat
  no_escrow : Nat
deriving DecidableEq, Repr

/-- `CancelOrder::handler` (`cancelorder.rs` lines 82-252): guards, the
four-queue scan, the ownership check, and release of exactly the
unfilled part of the original reservation. -/
def cancelOrder (now : Int) (userKey : Nat) (order_id : Nat) (s : CancelSt) :
    Except PErr CancelSt := do
  if s.market.settlement_deadline ≤ now then .error .MarketExpired
  if s.market.is_settled then .error .MarketAlreadySettled
  match removeOrderById s.orderbook order_id with
  | none => .error .OrdernotFound
  | some (order_found, order_side, order_token_type, ob) =>
    if userKey = order_found.user_key then do
      let s := { s with orderbook := ob }
      if order_side = .Buy then do
        let unfilled ← liftO (cSub order_found.quantity order_found.filledquantity) .MathOverflow
        let locked_amount ← liftO (cMul unfilled order_found.price) .MathOverflow
        let lc ← liftO (cSub s.user_stats_account.locked_collateral locked_amount) .MathOverflow
        let s := { s with user_stats_account.locked_collateral := lc }
        let (vb, ub) ← transferTok s.collateral_vault s.user_collateral locked_amount
        let s := { s with collateral_vault := vb, user_collateral := ub }
        let t ← liftO (cSub s.market.total_collateral_locked locked_amount) .MathOverflow
        pure { s with market.total_collateral_locked := t }
      else do
        let locked_quantity ← liftO (cSub order_found.quantity order_found.filledquantity) .MathOverflow
        let bal ← match order_token_type with
          | .Yes => liftO s.user_outcome_yes .OutcomeAccountRequired
          | .No => liftO s.user_outcome_no .OutcomeAccountRequired
        let s ← match order_token_type with
          | .Yes => do
              let v ← liftO (cSub s.user_stats_account.locked_yes locked_quantity) .MathOverflow
              pure { s with user_stats_account.locked_yes := v }
          | .No => do
              let v ← liftO (cSub s.user_stats_account.locked_no locked_quantity) .MathOverflow
              pure { s with user_stats_account.locked_no := v }
        match order_token_type with
        | .Yes => do
            let (eb, ub) ← transferTok s.yes_escrow bal locked_quantity
            pure { s with yes_escrow := eb, user_outcome_yes := some ub }
        | .No => do
            let (eb, ub) ← transferTok s.no_escrow bal locked_quantity
            pure { s with no_escrow := eb, user_outcome_no := some ub }
    else .error .NotAuthorized

/-- The accounts mutated by `MarketOrder::handler` (`marketorder.rs`);
the outcome-token ATAs are created on demand by Anchor, so they are
always present. -/
structure MarketSt where
  market : Market
  orderbook : OrderBook
  user_stats_account : UserStats
  user_collateral : Nat
  user_outcome_yes : Nat
  user_outcome_no : Nat
  collateral_vault : Nat
  yes_escrow : Nat
  no_escrow : Nat
  remaining_accounts : List UserStats
deriving DecidableEq, Repr

/-- The data of the `MarketOrderExecuted` event plus the walk's trade
log: iterations consumed, unconsumed amount, amount acquired for the
requester, and the fills applied. -/
structure MarketResult where
  iterations : Nat
  remaining : Nat
  fullfilled : Nat
  fills : List Fill
deriving DecidableEq, Repr

/-- Fill size of one market-order step (`marketorder.rs` lines 272-286):
for a Buy, as many tokens as the remaining collateral affords at the
resting price, capped by the resting remainder; for a Sell, the
remaining token amount capped by the resting remainder. -/
def marketFill (side : OrderSide) (remaining_amount book_price book_remaining_qty : Nat) :
    Except PErr Nat :=
  match side with
  | .Buy => do
      let order_buy_qty ← liftO (cDiv remaining_amount book_price) .MathOverflow
      pure (min order_buy_qty book_remaining_qty)
  | .Sell => pure (min remaining_amount book_remaining_qty)

/-- Credit the resting counter-party of one market-order fill through
the `remaining_accounts` scan (`marketorder.rs` lines 318-419). -/
def creditMarketCounterparty (tt : TokenType) (side : OrderSide) (key : Nat)
    (min_qty collateral_amount : Nat) (s : MarketSt) : Except PErr MarketSt := do
  if side = .Buy then do
    let (rem, seller_credited) ←
      creditFirst key (sellerCredit tt collateral_amount min_qty) s.remaining_accounts
    if seller_credited then pure { s with remaining_accounts := rem }
    else .error .SellerStatsAccountNotProvided
  else do
    let (rem, buyer_credited) ←
      creditFirst key (buyerCredit tt collateral_amount min_qty) s.remaining_accounts
    if buyer_credited then pure { s with remaining_accounts := rem }
    else .error .BuyerStatsAccountNotProvided

/-- Consumption bookkeeping of one market-order step (`marketorder.rs`
lines 292-316): a Buy spends `collateral_amount` of the remaining
collateral and acquires `min_qty` tokens; a Sell spends `min_qty` of
the remaining tokens and acquires `collateral_amount` collateral. -/
def marketConsume (side : OrderSide)
    (remaining_amount fullfilled_qty min_qty collateral_amount : Nat) :
    Except PErr (Nat × Nat) :=
  match side with
  | .Buy => do
      let r ← liftO (cSub remaining_amount collateral_amount) .MathOverflow
      let f ← liftO (cAdd fullfilled_qty min_qty) .MathOverflow
      pure (r, f)
  | .Sell => do
      let r ← liftO (cSub remaining_amount min_qty) .MathOverflow
      let f ← liftO (cAdd fullfilled_qty collateral_amount) .MathOverflow
      pure (r, f)

/-- The matching walk of `MarketOrder::handler` (`marketorder.rs`
lines 241-430).  Same cursor discipline as `matchLoop`; additionally
stops when the remaining amount reaches zero.  Returns the final queue,
iterations consumed, remaining amount, acquired amount, the fill log
and the state. -/
def marketLoop (userKey : Nat) (tt : TokenType) (side : OrderSide) (maxIter : Nat)
    (iteration remaining_amount fullfilled_qty : Nat) (fills : List Fill)
    (kept rest : List Order) (s : MarketSt) :
    Except PErr (List Order × Nat × Nat × Nat × List Fill × MarketSt) :=
  match rest with
  | [] => .ok (kept.reverse, iteration, remaining_amount, fullfilled_qty, fills, s)
  | b :: tl =>
    if iteration < maxIter ∧ 0 < remaining_amount then do
      let book_remaining_qty ← liftO (cSub b.quantity b.filledquantity) .MathOverflow
      if book_remaining_qty = 0 then
        marketLoop userKey tt side maxIter iteration remaining_amount fullfilled_qty fills kept tl s
      else if b.user_key = userKey then
        marketLoop userKey tt side maxIter iteration remaining_amount fullfilled_qty fills (b :: kept) tl s
      else do
        let min_qty ← marketFill side remaining_amount b.price book_remaining_qty
        let collateral_amount ← liftO (cMul b.price min_qty) .MathOverflow
        let bf ← liftO (cAdd b.filledquantity min_qty) .MathOverflow
        let b' : Order := { b with filledquantity := bf }
        let (remaining', fullfilled') ←
          marketConsume side remaining_amount fullfilled_qty min_qty collateral_amount
        let s ← creditMarketCounterparty tt side b.user_key min_qty collateral_amount s
        let fills' := fills ++ [⟨b.id, b.user_key, b.price, min_qty⟩]
        if b'.quantity ≤ b'.filledquantity then
          marketLoop userKey tt side maxIter (iteration + 1) remaining' fullfilled' fills' kept tl s
        else
          marketLoop userKey tt side maxIter (iteration + 1) remaining' fullfilled' fills' (b' :: kept) tl s
    else
      .ok (kept.reverse ++ b :: tl, iteration, remaining_amount, fullfilled_qty, fills, s)

/-- The admission guards, lazy stats initialisation, balance check and
up-front reservation of `MarketOrder::handler` (`marketorder.rs`
lines 115-228).  The Rust checks the Buy balance twice (lines 151-154
and 172-175) with the identical condition; the second check is elided. -/
def marketPrep (now : Int) (userKey : Nat) (market_id : Nat)
    (side : OrderSide) (tt : TokenType)
    (order_amount max_iteration : Nat) (s : MarketSt) :
    Except PErr MarketSt := do
  if s.market.settlement_deadline ≤ now then .error .MarketExpired
  if s.market.is_settled then .error .MarketAlreadySettled
  if max_iteration = 0 then .error .InvalidIterationLimit
  if order_amount = 0 then .error .InvalidOrderQuantity
  let s := if s.user_stats_account.user = 0 then
      { s with user_stats_account :=
          { user := userKey, market_id := market_id,
            locked_yes := 0, claimable_yes := 0, locked_no := 0, claimable_no := 0,
            locked_collateral := 0, claimable_collateral := 0,
            reward_claimed := s.user_stats_account.reward_claimed } }
    else s
  match side with
  | .Buy =>
      if s.user_collateral < order_amount then .error .NotEnoughBalance else pure ()
  | .Sell =>
      let bal := match tt with
        | .Yes => s.user_outcome_yes
        | .No => s.user_outcome_no
      if bal < order_amount then .error .NotEnoughBalance else pure ()
  if side = .Buy then do
    let (ub, vb) ← transferTok s.user_collateral s.collateral_vault order_amount
    let s := { s with user_collateral := ub, collateral_vault := vb }
    let v ← liftO (cAdd s.user_stats_account.locked_collateral order_amount) .MathOverflow
    let t ← liftO (cAdd s.market.total_collateral_locked order_amount) .MathOverflow
    pure { s with user_stats_account.locked_collateral := v,
                  market.total_collateral_locked := t }
  else
    match tt with
    | .Yes => do
        let (ub, eb) ← transferTok s.user_outcome_yes s.yes_escrow order_amount
        let s := { s with user_outcome_yes := ub, yes_escrow := eb }
        let v ← liftO (cAdd s.user_stats_account.locked_yes order_amount) .MathOverflow
        pure { s with user_stats_account.locked_yes := v }
    | .No => do
        let (ub, eb) ← transferTok s.user_outcome_no s.no_escrow order_amount
        let s := { s with user_outcome_no := ub, no_escrow := eb }
        let v ← liftO (cAdd s.user_stats_account.locked_no order_amount) .MathOverflow
        pure { s with user_stats_account.locked_no := v }

/-- The final distribution of `MarketOrder::handler` (`marketorder.rs`
lines 432-595): pay the requester the acquired tokens or collateral and
return the unconsumed remainder immediately. -/
def marketFinish (side : OrderSide) (tt : TokenType)
    (order_amount remaining_amount fullfilled_qty : Nat) (s : MarketSt) :
    Except PErr MarketSt := do
  match side with
  | .Buy => do
        let s ← match tt with
          | .Yes => do
              let (eb, ub) ← transferTok s.yes_escrow s.user_outcome_yes fullfilled_qty
              pure { s with yes_escrow := eb, user_outcome_yes := ub }
          | .No => do
              let (eb, ub) ← transferTok s.no_escrow s.user_outcome_no fullfilled_qty
              pure { s with no_escrow := eb, user_outcome_no := ub }
        let collateral_spent ← liftO (cSub order_amount remaining_amount) .MathOverflow
        let lc ← liftO (cSub s.user_stats_account.locked_collateral collateral_spent) .MathOverflow
        let t ← liftO (cSub s.market.total_collateral_locked collateral_spent) .MathOverflow
        let s := { s with user_stats_account.locked_collateral := lc,
                          market.total_collateral_locked := t }
        if 0 < remaining_amount then do
          let (vb, ub) ← transferTok s.collateral_vault s.user_collateral remaining_amount
          let s := { s with collateral_vault := vb, user_collateral := ub }
          let lc2 ← liftO (cSub s.user_stats_account.locked_collateral remaining_amount) .MathOverflow
          let t2 ← liftO (cSub s.market.total_collateral_locked remaining_amount) .MathOverflow
          pure { s with user_stats_account.locked_collateral := lc2,
                        market.total_collateral_locked := t2 }
        else pure s
  | .Sell => do
        let (vb, ub) ← transferTok s.collateral_vault s.user_collateral fullfilled_qty
        let s := { s with collateral_vault := vb, user_collateral := ub }
        let t ← liftO (cSub s.market.total_collateral_locked fullfilled_qty) .MathOverflow
        let s := { s with market.total_collateral_locked := t }
        let tokens_sold ← liftO (cSub order_amount remaining_amount) .MathOverflow
        let s ← match tt with
          | .Yes => do
              let v ← liftO (cSub s.user_stats_account.locked_yes tokens_sold) .MathOverflow
              pure { s with user_stats_account.locked_yes := v }
          | .No => do
              let v ← liftO (cSub s.user_stats_account.locked_no tokens_sold) .MathOverflow
              pure { s with user_stats_account.locked_no := v }
        if 0 < remaining_amount then
          match tt with
          | .Yes => do
              let (eb, ub) ← transferTok s.yes_escrow s.user_outcome_yes remaining_amount
              let s := { s with yes_escrow := eb, user_outcome_yes := ub }
              let v ← liftO (cSub s.user_stats_account.locked_yes remaining_amount) .MathOverflow
              pure { s with user_stats_account.locked_yes := v }
          | .No => do
              let (eb, ub) ← transferTok s.no_escrow s.user_outcome_no remaining_amount
              let s := { s with no_escrow := eb, user_outcome_no := ub }
              let v ← liftO (cSub s.user_stats_account.locked_no remaining_amount) .MathOverflow
              pure { s with user_stats_account.locked_no := v }
        else pure s

/-- `MarketOrder::handler` (`marketorder.rs` lines 100-618): guards and
reservation (`marketPrep`), the walk (`marketLoop`), and the final
distribution (`marketFinish`). -/
def marketOrder (now : Int) (userKey : Nat) (market_id : Nat)
    (side : OrderSide) (tt : TokenType)
    (order_amount max_iteration : Nat) (s : MarketSt) :
    Except PErr (MarketSt × MarketResult) := do
  let s ← marketPrep now userKey market_id side tt order_amount max_iteration s
  let (q', iters, remaining_amount, fullfilled_qty, fills, s) ←
    marketLoop userKey tt side max_iteration 0 order_amount 0 [] []
      (matchingQueue s.orderbook tt side) s
  let s := { s with orderbook := setMatchingQueue s.orderbook tt side q' }
  let s ← marketFinish side tt order_amount remaining_amount fullfilled_qty s
  pure (s, { iterations := iters, remaining := remaining_amount,
             fullfilled := fullfilled_qty, fills := fills })

/-- The visible post-state of a limit-order transaction: on success the
handler's result, on failure the pre-state.  Modelled from the spec:
the §5 transactional note - the host runtime applies a failed
operation's account writes not at all (all-or-nothing), which this core
assumes rather than reimplements. -/
def commitPlace (s : PlaceSt) (r : Except PErr (PlaceSt × PlaceResult)) : PlaceSt :=
  match r with
  | .ok (s', _) => s'
  | .error _ => s

/-- The visible post-state of a cancellation transaction; same
rollback model as `commitPlace`.  Modelled from the spec: §5. -/
def commitCancel (s : CancelSt) (r : Except PErr CancelSt) : CancelSt :=
  match r with
  | .ok s' => s'
  | .error _ => s

/-- The visible post-state of a market-order transaction; same
rollback model as `commitPlace`.  Modelled from the spec: §5. -/
def commitMarket (s : MarketSt) (r : Except PErr (MarketSt × MarketResult)) : MarketSt :=
  match r with
  | .ok (s', _) => s'
  | .error _ => s

/-- View: the market-order requester's outcome token account for the
given outcome. -/
def outcomeAcctM (s : MarketSt) (tt : TokenType) : Nat :=
  match tt with
  | .Yes => s.user_outcome_yes
  | .No => s.user_outcome_no

/-- View: the claimable balance of the given outcome token. -/
def claimableOutcome (st : UserStats) (tt : TokenType) : Nat :=
  match tt with
  | .Yes => st.claimable_yes
  | .No => st.claimable_no

/-- View: the locked balance of the given outcome token. -/
def lockedOutcome (st : UserStats) (tt : TokenType) : Nat :=
  match tt with
  | .Yes => st.locked_yes
  | .No => st.locked_no

/-- View: all resting orders of a book, in the scan order of
`CancelOrder::handler`. -/
def allOrders (ob : OrderBook) : List Order :=
  ob.yes_buy_orders ++ ob.yes_sell_orders ++ ob.no_buy_orders ++ ob.no_sell_orders

/-- View: credit `v` to the claimable balance of the given outcome. -/
def addClaimableOutcome (st : UserStats) (tt : TokenType) (v : Nat) : UserStats :=
  match tt with
  | .Yes => { st with claimable_yes := st.claimable_yes + v }
  | .No => { st with claimable_no := st.claimable_no + v }

/-- View: release `v` from the locked balance of the given outcome. -/
def subLockedOutcome (st : UserStats) (tt : TokenType) (v : Nat) : UserStats :=
  match tt with
  | .Yes => { st with locked_yes := st.locked_yes - v }
  | .No => { st with locked_no := st.locked_no - v }

/-- View: the canceller's outcome token account for the given outcome. -/
def outcomeAcctC (s : CancelSt) (tt : TokenType) : Option Nat :=
  match tt with
  | .Yes => s.user_outcome_yes
  | .No => s.user_outcome_no

/-- View: the escrow balance for the given outcome. -/
def escrowBalC (s : CancelSt) (tt : TokenType) : Nat :=
  match tt with
  | .Yes => s.yes_escrow
  | .No => s.no_escrow

/-! ### Concrete states for the testable scenarios -/

/-- An open, unsettled market with no collateral locked yet. -/
def mkMarket : Market :=
  { market_id := 7, settlement_deadline := 100, is_settled := false,
    total_collateral_locked := 0 }

/-- An empty order book for `mkMarket`. -/
def emptyBook : OrderBook :=
  { market_id := 7, next_order_id := 10, yes_buy_orders := [],
    yes_sell_orders := [], no_buy_orders := [], no_sell_orders := [] }

/-- A freshly initialised ledger entry for user `u` on `mkMarket`. -/
def freshStats (u : Nat) : UserStats :=
  { user := u, market_id := 7, claimable_yes := 0, locked_yes := 0,
    claimable_no := 0, locked_no := 0, claimable_collateral := 0,
    locked_collateral := 0, reward_claimed := false }

/-- A resting YES buy order of user 2 for 10 tokens at price 5, with the
matching market state: user 2 has 50 collateral locked and the market's
aggregate total is 50. -/
def C1pre : PlaceSt :=
  { market := { mkMarket with total_collateral_locked := 50 },
    orderbook := { emptyBook with yes_buy_orders :=
      [{ id := 1, market_id := 7, user_key := 2, side := .Buy, token_type := .Yes,
         price := 5, quantity := 10, filledquantity := 0, timestamp := 0 }] },
    user_stats_account := freshStats 1,
    user_collateral := 0, user_outcome_yes := some 10, user_outcome_no := none,
    collateral_vault := 50, yes_escrow := 0, no_escrow := 0,
    remaining_accounts := [{ freshStats 2 with locked_collateral := 50 }] }

/-- Cancellation state: a resting YES sell order of user 2 that user 1
will try to cancel. -/
def C5cancelPre : CancelSt :=
  { market := mkMarket,
    orderbook := { emptyBook with yes_sell_orders :=
      [{ id := 1, market_id := 7, user_key := 2, side := .Sell, token_type := .Yes,
         price := 5, quantity := 10, filledquantity := 0, timestamp := 0 }] },
    user_stats_account := freshStats 1,
    user_collateral := 0, user_outcome_yes := none, user_outcome_no := none,
    collateral_vault := 0, yes_escrow := 10, no_escrow := 0 }

/-- Limit-order state: a resting buy of user 2 whose ledger account is
not among the supplied candidates, so matching fails mid-walk. -/
def C5placePre : PlaceSt :=
  { market := { mkMarket with total_collateral_locked := 50 },
    orderbook := { emptyBook with yes_buy_orders :=
      [{ id := 1, market_id := 7, user_key := 2, side := .Buy, token_type := .Yes,
         price := 5, quantity := 10, filledquantity := 0, timestamp := 0 }] },
    user_stats_account := freshStats 1,
    user_collateral := 0, user_outcome_yes := some 10, user_outcome_no := none,
    collateral_vault := 50, yes_escrow := 0, no_escrow := 0,
    remaining_accounts := [] }

/-- Market-order state: a resting sell of user 2 whose ledger account is
not among the supplied candidates, so matching fails mid-walk. -/
def C5marketPre : MarketSt :=
  { market := mkMarket,
    orderbook := { emptyBook with yes_sell_orders :=
      [{ id := 1, market_id := 7, user_key := 2, side := .Sell, token_type := .Yes,
         price := 5, quantity := 10, filledquantity := 0, timestamp := 0 }] },
    user_stats_account := freshStats 1,
    user_collateral := 100, user_outcome_yes := 0, user_outcome_no := 0,
    collateral_vault := 0, yes_escrow := 10, no_escrow := 0,
    remaining_accounts := [] }

/-- A user with plenty of collateral facing an empty book, about to
place three resting buy orders. -/
def C3pre : PlaceSt :=
  { market := mkMarket, orderbook := emptyBook,
    user_stats_account := freshStats 1,
    user_collateral := 10000, user_outcome_yes := none, user_outcome_no := none,
    collateral_vault := 0, yes_escrow := 0, no_escrow := 0,
    remaining_accounts := [] }

/-- Three YES buy orders at prices 10, 12, 12 placed in that sequence on
an empty book (they get ids 10, 11, 12 in placement order). -/
def C3run : Except PErr PlaceSt := do
  let (s, _) ← placeOrder 0 1 7 .Buy .Yes 1 10 1 C3pre
  let (s, _) ← placeOrder 0 1 7 .Buy .Yes 1 12 1 s
  let (s, _) ← placeOrder 0 1 7 .Buy .Yes 1 12 1 s
  pure s

/-- An unfilled YES buy order of user 1 about to rest on `C3pre`. -/
def C3ord : Order :=
  { id := 10, market_id := 7, user_key := 1, side := .Buy, token_type := .Yes,
    price := 10, quantity := 1, filledquantity := 0, timestamp := 0 }

/-- `C3pre` after `C3ord` rests on the (previously empty) YES buy queue. -/
def C3post : PlaceSt :=
  { C3pre with orderbook := { emptyBook with yes_buy_orders := [C3ord] } }

/-- A resting YES sell order of user 2 for 100 tokens at price 5 (100
YES locked), and user 1 with 1000 collateral about to buy 40 at limit
price 5. -/
def C2pre : PlaceSt :=
  { market := mkMarket,
    orderbook := { emptyBook with yes_sell_orders :=
      [{ id := 1, market_id := 7, user_key := 2, side := .Sell, token_type := .Yes,
         price := 5, quantity := 100, filledquantity := 0, timestamp := 0 }] },
    user_stats_account := freshStats 1,
    user_collateral := 1000, user_outcome_yes := none, user_outcome_no := none,
    collateral_vault := 500, yes_escrow := 100, no_escrow := 0,
    remaining_accounts := [{ freshStats 2 with locked_yes := 100 }] }

/-- The incoming buy order of the C2 scenario, as it enters the walk
(40 YES at limit price 5, reservation already taken). -/
def C2ordIn : Order :=
  { id := 10, market_id := 7, user_key := 1, side := .Buy, token_type := .Yes,
    price := 5, quantity := 40, filledquantity := 0, timestamp := 0 }

/-- The resting sell order of the C2 scenario (100 YES at price 5 by
user 2). -/
def C2ordRest : Order :=
  { id := 1, market_id := 7, user_key := 2, side := .Sell, token_type := .Yes,
    price := 5, quantity := 100, filledquantity := 0, timestamp := 0 }

/-- The C2 scenario state just before the trade step: the incoming
buyer's 200 collateral is reserved and counted in the market total. -/
def C2stepPre : PlaceSt :=
  { market := { mkMarket with total_collateral_locked := 200 },
    orderbook := emptyBook,
    user_stats_account := { freshStats 1 with locked_collateral := 200 },
    user_collateral := 800, user_outcome_yes := none, user_outcome_no := none,
    collateral_vault := 700, yes_escrow := 100, no_escrow := 0,
    remaining_accounts := [{ freshStats 2 with locked_yes := 100 }] }

/-- A partially filled resting YES buy order of user 1 (10 at price 5,
4 filled, so 30 collateral still reserved). -/
def C4buyOrd : Order :=
  { id := 1, market_id := 7, user_key := 1, side := .Buy, token_type := .Yes,
    price := 5, quantity := 10, filledquantity := 4, timestamp := 0 }

/-- A partially filled resting YES sell order of user 1 (20 at price 3,
5 filled, so 15 YES still reserved). -/
def C4sellOrd : Order :=
  { id := 2, market_id := 7, user_key := 1, side := .Sell, token_type := .Yes,
    price := 3, quantity := 20, filledquantity := 5, timestamp := 0 }

/-- Cancellation scenario: user 1 has both orders above resting, with
matching reservations and some claimable balances from earlier fills. -/
def C4pre : CancelSt :=
  { market := { mkMarket with total_collateral_locked := 50 },
    orderbook := { emptyBook with
                   yes_buy_orders := [C4buyOrd],
                   yes_sell_orders := [C4sellOrd] },
    user_stats_account := { freshStats 1 with
      locked_collateral := 30, locked_yes := 15, claimable_yes := 7,
      claimable_collateral := 9 },
    user_collateral := 0, user_outcome_yes := some 2, user_outcome_no := none,
    collateral_vault := 100, yes_escrow := 50, no_escrow := 0 }

/-- `C4pre` after user 1 cancels the buy order: 30 collateral released
from the reservation back to the user, claimables untouched. -/
def C4postBuy : CancelSt :=
  { C4pre with
    orderbook := { emptyBook with yes_sell_orders := [C4sellOrd] },
    user_stats_account := { freshStats 1 with
      locked_collateral := 0, locked_yes := 15, claimable_yes := 7,
      claimable_collateral := 9 },
    collateral_vault := 70, user_collateral := 30,
    market := { mkMarket with total_collateral_locked := 20 } }

/-- `C3pre` after user 1 places one YES buy (1 at price 10): the order
rests as `C3ord`, 10 collateral is reserved, the id counter advances. -/
def C7place2 : PlaceSt :=
  { market := { mkMarket with total_collateral_locked := 10 },
    orderbook := { emptyBook with next_order_id := 11, yes_buy_orders := [C3ord] },
    user_stats_account := { freshStats 1 with locked_collateral := 10 },
    user_collateral := 9990, user_outcome_yes := none, user_outcome_no := none,
    collateral_vault := 10, yes_escrow := 0, no_escrow := 0,
    remaining_accounts := [] }

/-- A resting YES buy order used to fill a queue to capacity. -/
def C7fullOrd : Order :=
  { id := 3, market_id := 7, user_key := 2, side := .Buy, token_type := .Yes,
    price := 5, quantity := 1, filledquantity := 0, timestamp := 0 }

/-- A partially filled YES buy order (8 of 10 unfilled at price 4, so 32
collateral still reserved) whose remainder is about to be handled. -/
def C7ord : Order :=
  { id := 200, market_id := 7, user_key := 1, side := .Buy, token_type := .Yes,
    price := 4, quantity := 10, filledquantity := 2, timestamp := 0 }

/-- A state whose YES buy queue is exactly at `MAX_ORDERS_PER_SIDE`. -/
def C7pre : PlaceSt :=
  { market := mkMarket,
    orderbook := { emptyBook with yes_buy_orders := List.replicate 100 C7fullOrd },
    user_stats_account := { freshStats 1 with locked_collateral := 40, claimable_collateral := 3 },
    user_collateral := 0, user_outcome_yes := none, user_outcome_no := none,
    collateral_vault := 40, yes_escrow := 0, no_escrow := 0,
    remaining_accounts := [] }

/-- `C7pre` after the IOC fallback on `C7ord`: the 32 still-reserved
collateral moved from locked to claimable, the full queue untouched. -/
def C7post : PlaceSt :=
  { C7pre with user_stats_account := { freshStats 1 with
      locked_collateral := 8, claimable_collateral := 35 } }

/-- A resting YES sell of user 2: 3 at price 5 (the best-priced entry). -/
def C8ordA : Order :=
  { id := 1, market_id := 7, user_key := 2, side := .Sell, token_type := .Yes,
    price := 5, quantity := 3, filledquantity := 0, timestamp := 0 }

/-- A resting YES sell of user 3: 10 at price 6 (second in the queue). -/
def C8ordB : Order :=
  { id := 2, market_id := 7, user_key := 3, side := .Sell, token_type := .Yes,
    price := 6, quantity := 10, filledquantity := 0, timestamp := 0 }

/-- Two matchable resting sells against an incoming buy of 5 at limit
10 with `max_iteration = 1`: both counter-party accounts supplied. -/
def C8pre : PlaceSt :=
  { market := mkMarket,
    orderbook := { emptyBook with yes_sell_orders := [C8ordA, C8ordB] },
    user_stats_account := freshStats 1,
    user_collateral := 1000, user_outcome_yes := none, user_outcome_no := none,
    collateral_vault := 0, yes_escrow := 13, no_escrow := 0,
    remaining_accounts := [{ freshStats 2 with locked_yes := 3 }, { freshStats 3 with locked_yes := 10 }] }

/-- The incoming buy order of the C8 scenario as it enters the walk. -/
def C8order : Order :=
  { id := 10, market_id := 7, user_key := 1, side := .Buy, token_type := .Yes,
    price := 10, quantity := 5, filledquantity := 0, timestamp := 0 }

/-- The C8 scenario state entering the walk: 50 collateral reserved and
the order id consumed. -/
def C8mid : PlaceSt :=
  { market := { mkMarket with total_collateral_locked := 50 },
    orderbook := { emptyBook with yes_sell_orders := [C8ordA, C8ordB], next_order_id := 11 },
    user_stats_account := { freshStats 1 with locked_collateral := 50 },
    user_collateral := 950, user_outcome_yes := none, user_outcome_no := none,
    collateral_vault := 50, yes_escrow := 13, no_escrow := 0,
    remaining_accounts := [{ freshStats 2 with locked_yes := 3 }, { freshStats 3 with locked_yes := 10 }] }

/-- `C8mid` after the single allowed trade step (3 at the resting price
5): the buyer claims 3 YES, releases 30 of the reserved 50, pockets the
15 surplus as claimable, and seller 2 is credited 15. -/
def C8mid2 : PlaceSt :=
  { C8mid with
    market := { mkMarket with total_collateral_locked := 20 },
    user_stats_account := { freshStats 1 with claimable_yes := 3, locked_collateral := 20, claimable_collateral := 15 },
    remaining_accounts := [{ freshStats 2 with claimable_collateral := 15 }, { freshStats 3 with locked_yes := 10 }] }

/-- A resting YES buy of user 1 (10 at price 5, 50 reserved), the order
a later incoming order of user 1 itself must never match. -/
def C9restBuy : Order :=
  { id := 1, market_id := 7, user_key := 1, side := .Buy, token_type := .Yes,
    price := 5, quantity := 10, filledquantity := 0, timestamp := 0 }

/-- User 1's incoming YES sell (4 at price 5) as it enters the walk:
price-compatible with `C9restBuy` but owned by the same user. -/
def C9sellA : Order :=
  { id := 10, market_id := 7, user_key := 1, side := .Sell, token_type := .Yes,
    price := 5, quantity := 4, filledquantity := 0, timestamp := 0 }

/-- User 1 about to place the self-matching sell against their own
resting buy. -/
def C9preA : PlaceSt :=
  { market := { mkMarket with total_collateral_locked := 50 },
    orderbook := { emptyBook with yes_buy_orders := [C9restBuy] },
    user_stats_account := { freshStats 1 with locked_collateral := 50 },
    user_collateral := 0, user_outcome_yes := some 4, user_outcome_no := none,
    collateral_vault := 50, yes_escrow := 0, no_escrow := 0,
    remaining_accounts := [] }

/-- `C9preA` after user 1's sell: no fill happened, the resting buy is
untouched in its queue, and the sell rests on the YES sell queue. -/
def C9postA : PlaceSt :=
  { market := { mkMarket with total_collateral_locked := 50 },
    orderbook := { emptyBook with next_order_id := 11, yes_buy_orders := [C9restBuy], yes_sell_orders := [C9sellA] },
    user_stats_account := { freshStats 1 with locked_collateral := 50, locked_yes := 4 },
    user_collateral := 0, user_outcome_yes := some 0, user_outcome_no := none,
    collateral_vault := 50, yes_escrow := 4, no_escrow := 0,
    remaining_accounts := [] }

/-- User 2 about to sell 10 YES at 5 into the book left by `C9postA`,
with user 1's ledger account supplied as the counter-party. -/
def C9preB : PlaceSt :=
  { market := { mkMarket with total_collateral_locked := 50 },
    orderbook := C9postA.orderbook,
    user_stats_account := freshStats 2,
    user_collateral := 0, user_outcome_yes := some 10, user_outcome_no := none,
    collateral_vault := 50, yes_escrow := 4, no_escrow := 0,
    remaining_accounts := [{ freshStats 1 with locked_collateral := 50, locked_yes := 4 }] }

/-- A resting YES sell of user 2, 5 at price 10 - dearer than the
market buyer's whole remaining collateral. -/
def C10s1 : Order :=
  { id := 1, market_id := 7, user_key := 2, side := .Sell, token_type := .Yes,
    price := 10, quantity := 5, filledquantity := 0, timestamp := 0 }

/-- A resting YES sell of user 3, 5 at price 20. -/
def C10s2 : Order :=
  { id := 2, market_id := 7, user_key := 3, side := .Sell, token_type := .Yes,
    price := 20, quantity := 5, filledquantity := 0, timestamp := 0 }

/-- User 1 about to market-buy with 7 collateral against resting sells
at 10 and 20: every step can only fill 7/price = 0 tokens. -/
def C10pre : MarketSt :=
  { market := mkMarket,
    orderbook := { emptyBook with yes_sell_orders := [C10s1, C10s2] },
    user_stats_account := freshStats 1,
    user_collateral := 7, user_outcome_yes := 0, user_outcome_no := 0,
    collateral_vault := 0, yes_escrow := 10, no_escrow := 0,
    remaining_accounts := [freshStats 2, freshStats 3] }

/-- `C10pre` without user 2's ledger account among the candidates. -/
def C10missPre : MarketSt :=
  { C10pre with remaining_accounts := [freshStats 3] }

/-- The C10 walk's entry state: the 7 collateral already reserved. -/
def C10mid : MarketSt :=
  { C10pre with user_collateral := 0, collateral_vault := 7, user_stats_account := { freshStats 1 with locked_collateral := 7 }, market := { mkMarket with total_collateral_locked := 7 } }

/-- The full C8 run's final state: one fill applied, order B untouched,
and the 2 unfilled of the incoming buy resting on the YES buy queue. -/
def C8post : PlaceSt :=
  { market := { mkMarket with total_collateral_locked := 20 },
    orderbook := { emptyBook with next_order_id := 11, yes_sell_orders := [C8ordB], yes_buy_orders := [{ C8order with filledquantity := 3 }] },
    user_stats_account := { freshStats 1 with claimable_yes := 3, locked_collateral := 20, claimable_collateral := 15 },
    user_collateral := 950, user_outcome_yes := none, user_outcome_no := none,
    collateral_vault := 50, yes_escrow := 13, no_escrow := 0,
    remaining_accounts := [{ freshStats 2 with claimable_collateral := 15 }, { freshStats 3 with locked_yes := 10 }] }

end StanX

namespace StanX

/-- C1: REFUTED on the code (code bug).  The claim requires that when an
incoming seller fills against a resting buy order, the trade value
released from the resting buyer's `locked_collateral` is subtracted from
the market's `total_collateral_locked` in the same step.  In the
embedded `PlaceOrder::handler`, user 1 sells 10 YES at price 5 into user
2's resting buy (10 at price 5): the fill releases the full 50 from the
resting buyer's `locked_collateral` (50 to 0), yet the market total
stays at 50 - the incoming-seller branch of `limitorder.rs`
(lines 452-536) never updates `total_collateral_locked`, unlike the
symmetric incoming-buyer branch (lines 441-444). -/
theorem C1_incoming_seller_leaves_market_total_unchanged :
    (placeOrder 0 1 7 OrderSide.Sell TokenType.Yes 10 5 10 C1pre).toOption.map
        (fun p => (p.1.market.total_collateral_locked,
                   p.1.remaining_accounts.map (fun a => a.locked_collateral),
                   p.2.fills)) =
      some (50, [0], [⟨1, 2, 5, 10⟩]) ∧
    C1pre.market.total_collateral_locked = 50 ∧
    C1pre.remaining_accounts.map (fun a => a.locked_collateral) = [50] := by
  decide

/-- C5: every error aborts the whole requested operation with no partial
mutation visible afterward: under the host runtime's all-or-nothing
application of a transaction's account writes (spec section 5), a
cancellation, limit-order or market-order call that returns any error
leaves the visible state - order book, requester ledger, counter-party
ledgers, market totals - exactly as it was before the call. -/
theorem C5_errors_leave_no_visible_mutation :
    (∀ (now : Int) (u oid : Nat) (s : CancelSt) (e : PErr),
        cancelOrder now u oid s = .error e →
        commitCancel s (cancelOrder now u oid s) = s) ∧
    (∀ (now : Int) (u mid : Nat) (sd : OrderSide) (tt : TokenType)
        (q p mi : Nat) (s : PlaceSt) (e : PErr),
        placeOrder now u mid sd tt q p mi s = .error e →
        commitPlace s (placeOrder now u mid sd tt q p mi s) = s) ∧
    (∀ (now : Int) (u mid : Nat) (sd : OrderSide) (tt : TokenType)
        (oa mi : Nat) (s : MarketSt) (e : PErr),
        marketOrder now u mid sd tt oa mi s = .error e →
        commitMarket s (marketOrder now u mid sd tt oa mi s) = s) := by
  refine ⟨fun _ _ _ _ _ h => ?_, fun _ _ _ _ _ _ _ _ _ _ h => ?_,
          fun _ _ _ _ _ _ _ _ _ h => ?_⟩
  · rw [h]; rfl
  · rw [h]; rfl
  · rw [h]; rfl

/-- Witness for C5: a cancellation of another user's order
(`NotAuthorized`), a limit-order walk hitting a missing counter-party
ledger (`BuyerStatsAccountNotProvided`), and a market-order walk hitting
a missing counter-party ledger (`SellerStatsAccountNotProvided`) all
leave the visible state untouched. -/
theorem C5_witness :
    commitCancel C5cancelPre (cancelOrder 0 1 1 C5cancelPre) = C5cancelPre ∧
    commitPlace C5placePre
      (placeOrder 0 1 7 OrderSide.Sell TokenType.Yes 10 5 10 C5placePre) = C5placePre ∧
    commitMarket C5marketPre
      (marketOrder 0 1 7 OrderSide.Buy TokenType.Yes 50 10 C5marketPre) = C5marketPre :=
  ⟨C5_errors_leave_no_visible_mutation.1 0 1 1 C5cancelPre .NotAuthorized rfl,
   C5_errors_leave_no_visible_mutation.2.1 0 1 7 .Sell .Yes 10 5 10 C5placePre
     .BuyerStatsAccountNotProvided rfl,
   C5_errors_leave_no_visible_mutation.2.2 0 1 7 .Buy .Yes 50 10 C5marketPre
     .SellerStatsAccountNotProvided rfl⟩

/-- A stable sort whose comparator holds on every tie of the filtered
class keeps that class's relative order: filtering the sorted list is
the same as filtering the input. -/
theorem insertionSort_filter_eq {α : Type} (r : α → α → Prop) [DecidableRel r]
    (pred : α → Bool)
    (hpred : ∀ a b, pred a = true → pred b = true → r a b)
    (l : List α) :
    (l.insertionSort r).filter pred = l.filter pred := by
  have hpair : (l.filter pred).Pairwise r :=
    List.pairwise_of_forall_mem_list (fun a ha b hb =>
      hpred a b (List.of_mem_filter ha) (List.of_mem_filter hb))
  have hsub : (l.filter pred).Sublist (l.insertionSort r) :=
    List.sublist_insertionSort hpair (List.filter_sublist l)
  have hsub2 : ((l.filter pred).filter pred).Sublist ((l.insertionSort r).filter pred) :=
    hsub.filter pred
  rw [List.filter_eq_self.mpr (fun a ha => List.of_mem_filter ha)] at hsub2
  have hperm : ((l.insertionSort r).filter pred).Perm (l.filter pred) :=
    (List.perm_insertionSort r l).filter pred
  exact (hsub2.eq_of_length hperm.length_eq.symm).symm

/-- C3: queue insertion by limit-order placement (push followed by the
price-only comparison sort of `limitorder.rs` lines 622-631, via
`handleRemainder`) keeps buy queues descending and sell queues ascending
by price, is a permutation of the pushed list, and preserves the
relative insertion order of equal-priced entries; concretely, buy orders
placed at prices 10, 12, 12 (receiving ids 10, 11, 12) rest as
[12 (id 11, first), 12 (id 12, second), 10 (id 10)]. -/
theorem C3_queue_price_sorted_ties_by_insertion :
    (∀ (tt : TokenType) (side : OrderSide) (order : Order) (s : PlaceSt) (s' : PlaceSt),
        order.filledquantity < order.quantity →
        (restingQueue s.orderbook tt side).length < MAX_ORDERS_PER_SIDE →
        handleRemainder tt side order s = .ok s' →
        restingQueue s'.orderbook tt side =
          (if side = .Buy then
            ((restingQueue s.orderbook tt side) ++ [order]).insertionSort
              (fun a b => b.price ≤ a.price)
          else
            ((restingQueue s.orderbook tt side) ++ [order]).insertionSort
              (fun a b => a.price ≤ b.price))) ∧
    (∀ (q : List Order) (o : Order),
        ((q ++ [o]).insertionSort (fun a b => b.price ≤ a.price)).Pairwise
          (fun a b => b.price ≤ a.price) ∧
        ((q ++ [o]).insertionSort (fun a b => b.price ≤ a.price)).Perm (q ++ [o]) ∧
        (∀ p, ((q ++ [o]).insertionSort (fun a b => b.price ≤ a.price)).filter
            (fun x => decide (x.price = p)) =
          (q ++ [o]).filter (fun x => decide (x.price = p)))) ∧
    (∀ (q : List Order) (o : Order),
        ((q ++ [o]).insertionSort (fun a b => a.price ≤ b.price)).Pairwise
          (fun a b => a.price ≤ b.price) ∧
        ((q ++ [o]).insertionSort (fun a b => a.price ≤ b.price)).Perm (q ++ [o]) ∧
        (∀ p, ((q ++ [o]).insertionSort (fun a b => a.price ≤ b.price)).filter
            (fun x => decide (x.price = p)) =
          (q ++ [o]).filter (fun x => decide (x.price = p)))) ∧
    C3run.toOption.map
        (fun s => s.orderbook.yes_buy_orders.map (fun o => (o.id, o.price))) =
      some [(11, 12), (12, 12), (10, 10)] := by
  haveI hteI : IsTotal Order (fun a b => b.price ≤ a.price) :=
    ⟨fun a b => Nat.le_total b.price a.price⟩
  haveI htrI : IsTrans Order (fun a b => b.price ≤ a.price) :=
    ⟨fun _ _ _ h1 h2 => Nat.le_trans h2 h1⟩
  haveI htaI : IsTotal Order (fun a b => a.price ≤ b.price) :=
    ⟨fun a b => Nat.le_total a.price b.price⟩
  haveI htsI : IsTrans Order (fun a b => a.price ≤ b.price) :=
    ⟨fun _ _ _ h1 h2 => Nat.le_trans h1 h2⟩
  refine ⟨?_, ?_, ?_, by decide⟩
  · intro tt side order s s' hlt hlen h
    have h1 : liftO (cSub order.quantity order.filledquantity) PErr.MathOverflow =
        Except.ok (order.quantity - order.filledquantity) := by
      simp [liftO, cSub, Nat.le_of_lt hlt]
    simp only [handleRemainder, if_pos hlt, h1, bind, Except.bind] at h
    rw [if_neg (Nat.not_le.mpr hlen)] at h
    simp only [pure, Except.pure, Except.ok.injEq] at h
    subst h
    cases side with
    | Buy => cases tt <;> rfl
    | Sell => cases tt <;> rfl
  · intro q o
    refine ⟨List.sorted_insertionSort _ _, List.perm_insertionSort _ _, fun p => ?_⟩
    exact insertionSort_filter_eq _ _
      (fun a b ha hb => by
        simp only [decide_eq_true_eq] at ha hb
        omega) _
  · intro q o
    refine ⟨List.sorted_insertionSort _ _, List.perm_insertionSort _ _, fun p => ?_⟩
    exact insertionSort_filter_eq _ _
      (fun a b ha hb => by
        simp only [decide_eq_true_eq] at ha hb
        omega) _

/-- Reduction of the Except monad's bind on a success value. -/
theorem exbind_ok {α β : Type} (a : α) (f : α → Except PErr β) :
    (Except.ok a : Except PErr α) >>= f = f a := rfl

/-- Reduction of the Except monad's bind on a pure value. -/
theorem expure_bind {α β : Type} (a : α) (f : α → Except PErr β) :
    (pure a : Except PErr α) >>= f = f a := rfl

/-- Reduction of the Except monad's bind on an error value. -/
theorem exbind_err {α β : Type} (e : PErr) (f : α → Except PErr β) :
    (Except.error e : Except PErr α) >>= f = Except.error e := rfl

/-- The counter-party scan on a list split at the first account owned by
`key` updates exactly that account and reports success. -/
theorem creditFirst_append {key : Nat} {f : UserStats → Except PErr UserStats}
    {l1 l2 : List UserStats} {seller seller' : UserStats}
    (hl1 : ∀ x ∈ l1, x.user ≠ key) (hsel : seller.user = key)
    (hf : f seller = .ok seller') :
    creditFirst key f (l1 ++ seller :: l2) = .ok (l1 ++ seller' :: l2, true) := by
  induction l1 with
  | nil => simp [creditFirst, hsel, hf, exbind_ok]
  | cons a tl ih =>
      have ha : a.user ≠ key := hl1 a (by simp)
      simp [creditFirst, ha, ih (fun x hx => hl1 x (by simp [hx])), exbind_ok]

/-- The counter-party scan fails (reports `found = false` and leaves the
list unchanged) when no account is owned by `key`. -/
theorem creditFirst_notFound {key : Nat} {f : UserStats → Except PErr UserStats}
    {l : List UserStats} (h : ∀ x ∈ l, x.user ≠ key) :
    creditFirst key f l = .ok (l, false) := by
  induction l with
  | nil => rfl
  | cons a tl ih =>
      have ha : a.user ≠ key := h a (by simp)
      simp [creditFirst, ha, ih (fun x hx => h x (by simp [hx])), exbind_ok]

/-- Successful run of the resting seller's credit mutation. -/
theorem sellerCredit_ok (tt : TokenType) (ca mq : Nat) (st : UserStats)
    (h1 : st.claimable_collateral + ca ≤ U64MAX) (h2 : mq ≤ lockedOutcome st tt) :
    sellerCredit tt ca mq st =
      .ok (subLockedOutcome
        { st with claimable_collateral := st.claimable_collateral + ca } tt mq) := by
  cases tt <;>
    simp_all [sellerCredit, liftO, cAdd, cSub, lockedOutcome, subLockedOutcome, exbind_ok]

/-- Successful run of the resting buyer's credit mutation. -/
theorem buyerCredit_ok (tt : TokenType) (ca mq : Nat) (st : UserStats)
    (h1 : claimableOutcome st tt + mq ≤ U64MAX) (h2 : ca ≤ st.locked_collateral) :
    buyerCredit tt ca mq st =
      .ok { addClaimableOutcome st tt mq with
            locked_collateral := st.locked_collateral - ca } := by
  cases tt <;>
    simp_all [buyerCredit, liftO, cAdd, cSub, claimableOutcome, addClaimableOutcome, exbind_ok]

/-- C2: an incoming-buyer trade step at fill `min_qty` against a resting
sell order `b` with `b.price ≤ order.price` executes at the resting
price: the buyer gains `min_qty` claimable outcome tokens and releases
`min_qty * order.price` locked collateral; the price-improvement surplus
`min_qty * (order.price - b.price)` becomes buyer claimable collateral
and, together with the trade value, leaves the market's aggregate total;
the resting seller gains `min_qty * b.price` claimable collateral and
releases `min_qty` locked outcome tokens.  Concretely, a resting sell of
100 YES at price 5 hit by an incoming buy of 40 at price 5 leaves the
resting order on the book with filled quantity 40, buyer claimable_yes
40 with the 200 reserved collateral fully released, seller
claimable_collateral 200 and locked_yes 60. -/
theorem C2_incoming_buyer_trade_step :
    (∀ (tt : TokenType) (order b : Order) (min_qty : Nat) (s : PlaceSt)
        (l1 l2 : List UserStats) (seller : UserStats),
        b.price ≤ order.price →
        order.filledquantity + min_qty ≤ U64MAX →
        b.filledquantity + min_qty ≤ U64MAX →
        min_qty * order.price ≤ U64MAX →
        claimableOutcome s.user_stats_account tt + min_qty ≤ U64MAX →
        min_qty * order.price ≤ s.user_stats_account.locked_collateral →
        s.user_stats_account.claimable_collateral +
          (min_qty * order.price - min_qty * b.price) ≤ U64MAX →
        min_qty * order.price ≤ s.market.total_collateral_locked →
        seller.claimable_collateral + min_qty * b.price ≤ U64MAX →
        min_qty ≤ lockedOutcome seller tt →
        s.remaining_accounts = l1 ++ seller :: l2 →
        seller.user = b.user_key →
        (∀ x ∈ l1, x.user ≠ b.user_key) →
        applyMatch tt true order b min_qty s =
          .ok ({ order with filledquantity := order.filledquantity + min_qty },
               { b with filledquantity := b.filledquantity + min_qty },
               { s with
                 user_stats_account :=
                   { addClaimableOutcome s.user_stats_account tt min_qty with
                     locked_collateral :=
                       s.user_stats_account.locked_collateral - min_qty * order.price,
                     claimable_collateral :=
                       s.user_stats_account.claimable_collateral +
                         (min_qty * order.price - min_qty * b.price) },
                 market := { s.market with total_collateral_locked :=
                   s.market.total_collateral_locked - min_qty * order.price },
                 remaining_accounts :=
                   l1 ++ (subLockedOutcome
                     { seller with claimable_collateral :=
                         seller.claimable_collateral + min_qty * b.price }
                     tt min_qty) :: l2 })) ∧
    (placeOrder 0 1 7 OrderSide.Buy TokenType.Yes 40 5 10 C2pre).toOption.map
        (fun p => (p.1.orderbook.yes_sell_orders.map (fun o => (o.id, o.filledquantity)),
                   p.1.user_stats_account.claimable_yes,
                   p.1.user_stats_account.locked_collateral,
                   p.1.user_stats_account.claimable_collateral,
                   p.1.remaining_accounts.map (fun a => (a.claimable_collateral, a.locked_yes)),
                   p.1.market.total_collateral_locked,
                   p.2.fills)) =
      some ([(1, 40)], 40, 0, 0, [(200, 60)], 0, [⟨1, 2, 5, 40⟩]) := by
  constructor
  · intro tt order b min_qty s l1 l2 seller hpb ha1 ha2 ha3 ha4 ha5 ha6 ha7 ha8 ha9
      hrem hsel hl1
    have hc1 : min_qty * b.price ≤ min_qty * order.price :=
      Nat.mul_le_mul (le_refl min_qty) hpb
    have hb3 : min_qty * b.price ≤ U64MAX := hc1.trans ha3
    have hk : min_qty * order.price - min_qty * b.price + min_qty * b.price =
        min_qty * order.price := Nat.sub_add_cancel hc1
    have e1 : liftO (cAdd b.filledquantity min_qty) PErr.MathOverflow =
        .ok (b.filledquantity + min_qty) := by simp [liftO, cAdd, ha2]
    have e2 : liftO (cAdd order.filledquantity min_qty) PErr.MathOverflow =
        .ok (order.filledquantity + min_qty) := by simp [liftO, cAdd, ha1]
    have e3 : liftO (cMul min_qty b.price) PErr.MathOverflow =
        .ok (min_qty * b.price) := by simp [liftO, cMul, hb3]
    have e4 : liftO (cMul min_qty order.price) PErr.MathOverflow =
        .ok (min_qty * order.price) := by simp [liftO, cMul, ha3]
    have e5 : liftO (cSub (min_qty * order.price) (min_qty * b.price)) PErr.MathOverflow =
        .ok (min_qty * order.price - min_qty * b.price) := by simp [liftO, cSub, hc1]
    have ecf := @creditFirst_append b.user_key
      (sellerCredit tt (min_qty * b.price) min_qty) l1 l2 seller _
      hl1 hsel (sellerCredit_ok tt (min_qty * b.price) min_qty seller ha8 ha9)
    cases tt with
    | Yes =>
        simp only [claimableOutcome] at ha4
        have e6 : liftO (cAdd s.user_stats_account.claimable_yes min_qty) PErr.MathOverflow =
            .ok (s.user_stats_account.claimable_yes + min_qty) := by simp [liftO, cAdd, ha4]
        have e7 : liftO (cSub s.user_stats_account.locked_collateral
            (min_qty * order.price)) PErr.MathOverflow =
            .ok (s.user_stats_account.locked_collateral - min_qty * order.price) := by
          simp [liftO, cSub, ha5]
        simp only [applyMatch, e1, e2, e3, e4, e5, e6, e7, exbind_ok, expure_bind, hrem]
        by_cases hs : 0 < min_qty * order.price - min_qty * b.price
        · rw [if_pos hs]
          have e8 : liftO (cAdd s.user_stats_account.claimable_collateral
              (min_qty * order.price - min_qty * b.price)) PErr.MathOverflow =
              .ok (s.user_stats_account.claimable_collateral +
                (min_qty * order.price - min_qty * b.price)) := by
            simp [liftO, cAdd, ha6]
          have hkl : min_qty * order.price - min_qty * b.price ≤
              s.market.total_collateral_locked := le_trans (Nat.sub_le _ _) ha7
          have e9 : liftO (cSub s.market.total_collateral_locked
              (min_qty * order.price - min_qty * b.price)) PErr.MathOverflow =
              .ok (s.market.total_collateral_locked -
                (min_qty * order.price - min_qty * b.price)) := by
            simp [liftO, cSub, hkl]
          have hkl2 : min_qty * b.price ≤ s.market.total_collateral_locked -
              (min_qty * order.price - min_qty * b.price) := by omega
          have e10 : liftO (cSub (s.market.total_collateral_locked -
              (min_qty * order.price - min_qty * b.price)) (min_qty * b.price))
              PErr.MathOverflow =
              .ok (s.market.total_collateral_locked -
                (min_qty * order.price - min_qty * b.price) - min_qty * b.price) := by
            simp [liftO, cSub, hkl2]
          simp [e8, e9, e10, ecf, exbind_ok, expure_bind, addClaimableOutcome,
            subLockedOutcome, Prod.mk.injEq, PlaceSt.mk.injEq, Market.mk.injEq,
            UserStats.mk.injEq]
          rw [Nat.sub_sub, hk]
        · rw [if_neg hs]
          have hrn : min_qty * order.price = min_qty * b.price :=
            Nat.le_antisymm (Nat.le_of_sub_eq_zero (Nat.eq_zero_of_not_pos hs)) hc1
          have e10 : liftO (cSub s.market.total_collateral_locked (min_qty * b.price))
              PErr.MathOverflow =
              .ok (s.market.total_collateral_locked - min_qty * b.price) := by
            simp [liftO, cSub, le_trans hc1 ha7]
          simp [e10, ecf, exbind_ok, expure_bind, addClaimableOutcome,
            subLockedOutcome, Prod.mk.injEq, PlaceSt.mk.injEq, Market.mk.injEq,
            UserStats.mk.injEq, hrn]
    | No =>
        simp only [claimableOutcome] at ha4
        have e6 : liftO (cAdd s.user_stats_account.claimable_no min_qty) PErr.MathOverflow =
            .ok (s.user_stats_account.claimable_no + min_qty) := by simp [liftO, cAdd, ha4]
        have e7 : liftO (cSub s.user_stats_account.locked_collateral
            (min_qty * order.price)) PErr.MathOverflow =
            .ok (s.user_stats_account.locked_collateral - min_qty * order.price) := by
          simp [liftO, cSub, ha5]
        simp only [applyMatch, e1, e2, e3, e4, e5, e6, e7, exbind_ok, expure_bind, hrem]
        by_cases hs : 0 < min_qty * order.price - min_qty * b.price
        · rw [if_pos hs]
          have e8 : liftO (cAdd s.user_stats_account.claimable_collateral
              (min_qty * order.price - min_qty * b.price)) PErr.MathOverflow =
              .ok (s.user_stats_account.claimable_collateral +
                (min_qty * order.price - min_qty * b.price)) := by
            simp [liftO, cAdd, ha6]
          have hkl : min_qty * order.price - min_qty * b.price ≤
              s.market.total_collateral_locked := le_trans (Nat.sub_le _ _) ha7
          have e9 : liftO (cSub s.market.total_collateral_locked
              (min_qty * order.price - min_qty * b.price)) PErr.MathOverflow =
              .ok (s.market.total_collateral_locked -
                (min_qty * order.price - min_qty * b.price)) := by
            simp [liftO, cSub, hkl]
          have hkl2 : min_qty * b.price ≤ s.market.total_collateral_locked -
              (min_qty * order.price - min_qty * b.price) := by omega
          have e10 : liftO (cSub (s.market.total_collateral_locked -
              (min_qty * order.price - min_qty * b.price)) (min_qty * b.price))
              PErr.MathOverflow =
              .ok (s.market.total_collateral_locked -
                (min_qty * order.price - min_qty * b.price) - min_qty * b.price) := by
            simp [liftO, cSub, hkl2]
          simp [e8, e9, e10, ecf, exbind_ok, expure_bind, addClaimableOutcome,
            subLockedOutcome, Prod.mk.injEq, PlaceSt.mk.injEq, Market.mk.injEq,
            UserStats.mk.injEq]
          rw [Nat.sub_sub, hk]
        · rw [if_neg hs]
          have hrn : min_qty * order.price = min_qty * b.price :=
            Nat.le_antisymm (Nat.le_of_sub_eq_zero (Nat.eq_zero_of_not_pos hs)) hc1
          have e10 : liftO (cSub s.market.total_collateral_locked (min_qty * b.price))
              PErr.MathOverflow =
              .ok (s.market.total_collateral_locked - min_qty * b.price) := by
            simp [liftO, cSub, le_trans hc1 ha7]
          simp [e10, ecf, exbind_ok, expure_bind, addClaimableOutcome,
            subLockedOutcome, Prod.mk.injEq, PlaceSt.mk.injEq, Market.mk.injEq,
            UserStats.mk.injEq, hrn]
  · rfl

/-- A queue contains no order with id `oid` exactly when the
position-scan-and-remove finds nothing. -/
theorem extractById_eq_none {oid : Nat} {l : List Order} :
    extractById oid l = none ↔ ∀ o ∈ l, o.id ≠ oid := by
  induction l with
  | nil => simp [extractById]
  | cons a tl ih =>
      by_cases ha : a.id = oid <;> simp [extractById, ha, ih]

/-- C4: cancellation semantics.  With the market open and unsettled:
an order id resting in none of the four queues fails with
`OrdernotFound`; an order owned by someone else fails with
`NotAuthorized`; otherwise the order is removed from its queue and
exactly the unfilled part of the original reservation is released -
`(quantity - filled) * price` collateral for a Buy,
`quantity - filled` outcome tokens for a Sell - while every claimable
balance of the canceller is left unchanged. -/
theorem C4_cancel_releases_exactly_unfilled :
    (∀ (now : Int) (u oid : Nat) (s : CancelSt),
        now < s.market.settlement_deadline →
        s.market.is_settled = false →
        (∀ o ∈ allOrders s.orderbook, o.id ≠ oid) →
        cancelOrder now u oid s = .error .OrdernotFound) ∧
    (∀ (now : Int) (u oid : Nat) (s : CancelSt) (o : Order) (sd : OrderSide)
        (tt : TokenType) (ob : OrderBook),
        now < s.market.settlement_deadline →
        s.market.is_settled = false →
        removeOrderById s.orderbook oid = some (o, sd, tt, ob) →
        o.user_key ≠ u →
        cancelOrder now u oid s = .error .NotAuthorized) ∧
    (∀ (now : Int) (u oid : Nat) (s : CancelSt) (o : Order)
        (tt : TokenType) (ob : OrderBook),
        now < s.market.settlement_deadline →
        s.market.is_settled = false →
        removeOrderById s.orderbook oid = some (o, OrderSide.Buy, tt, ob) →
        o.user_key = u →
        o.filledquantity ≤ o.quantity →
        (o.quantity - o.filledquantity) * o.price ≤ U64MAX →
        (o.quantity - o.filledquantity) * o.price ≤ s.user_stats_account.locked_collateral →
        (o.quantity - o.filledquantity) * o.price ≤ s.collateral_vault →
        (o.quantity - o.filledquantity) * o.price ≤ s.market.total_collateral_locked →
        cancelOrder now u oid s = .ok
          { s with
            orderbook := ob,
            user_stats_account.locked_collateral :=
              s.user_stats_account.locked_collateral -
                (o.quantity - o.filledquantity) * o.price,
            collateral_vault :=
              s.collateral_vault - (o.quantity - o.filledquantity) * o.price,
            user_collateral :=
              s.user_collateral + (o.quantity - o.filledquantity) * o.price,
            market.total_collateral_locked :=
              s.market.total_collateral_locked -
                (o.quantity - o.filledquantity) * o.price }) ∧
    (∀ (now : Int) (u oid : Nat) (s : CancelSt) (o : Order)
        (tt : TokenType) (ob : OrderBook) (bal : Nat),
        now < s.market.settlement_deadline →
        s.market.is_settled = false →
        removeOrderById s.orderbook oid = some (o, OrderSide.Sell, tt, ob) →
        o.user_key = u →
        o.filledquantity ≤ o.quantity →
        outcomeAcctC s tt = some bal →
        o.quantity - o.filledquantity ≤ lockedOutcome s.user_stats_account tt →
        o.quantity - o.filledquantity ≤ escrowBalC s tt →
        ∃ s', cancelOrder now u oid s = .ok s' ∧
          s'.orderbook = ob ∧
          lockedOutcome s'.user_stats_account tt =
            lockedOutcome s.user_stats_account tt - (o.quantity - o.filledquantity) ∧
          s'.user_stats_account.claimable_yes = s.user_stats_account.claimable_yes ∧
          s'.user_stats_account.claimable_no = s.user_stats_account.claimable_no ∧
          s'.user_stats_account.claimable_collateral =
            s.user_stats_account.claimable_collateral ∧
          s'.user_stats_account.locked_collateral =
            s.user_stats_account.locked_collateral ∧
          s'.market = s.market ∧
          s'.user_collateral = s.user_collateral ∧
          outcomeAcctC s' tt = some (bal + (o.quantity - o.filledquantity)) ∧
          escrowBalC s' tt = escrowBalC s tt - (o.quantity - o.filledquantity)) := by
  refine ⟨?_, ?_, ?_, ?_⟩
  · intro now u oid s hdl hst hnone
    have h1 : extractById oid s.orderbook.yes_buy_orders = none :=
      extractById_eq_none.mpr (fun o ho => hnone o (by simp [allOrders, ho]))
    have h2 : extractById oid s.orderbook.yes_sell_orders = none :=
      extractById_eq_none.mpr (fun o ho => hnone o (by simp [allOrders, ho]))
    have h3 : extractById oid s.orderbook.no_buy_orders = none :=
      extractById_eq_none.mpr (fun o ho => hnone o (by simp [allOrders, ho]))
    have h4 : extractById oid s.orderbook.no_sell_orders = none :=
      extractById_eq_none.mpr (fun o ho => hnone o (by simp [allOrders, ho]))
    simp [cancelOrder, removeOrderById, h1, h2, h3, h4, not_le.mpr hdl, hst,
      exbind_ok, expure_bind]
  · intro now u oid s o sd tt ob hdl hst hfind howner
    simp [cancelOrder, hfind, not_le.mpr hdl, hst, exbind_ok, expure_bind,
      Ne.symm howner]
  · intro now u oid s o tt ob hdl hst hfind howner hfq hmax hlc hv htot
    have e1 : liftO (cSub o.quantity o.filledquantity) PErr.MathOverflow =
        .ok (o.quantity - o.filledquantity) := by simp [liftO, cSub, hfq]
    have e2 : liftO (cMul (o.quantity - o.filledquantity) o.price) PErr.MathOverflow =
        .ok ((o.quantity - o.filledquantity) * o.price) := by simp [liftO, cMul, hmax]
    have e3 : liftO (cSub s.user_stats_account.locked_collateral
        ((o.quantity - o.filledquantity) * o.price)) PErr.MathOverflow =
        .ok (s.user_stats_account.locked_collateral -
          (o.quantity - o.filledquantity) * o.price) := by simp [liftO, cSub, hlc]
    have e4 : transferTok s.collateral_vault s.user_collateral
        ((o.quantity - o.filledquantity) * o.price) =
        .ok (s.collateral_vault - (o.quantity - o.filledquantity) * o.price,
             s.user_collateral + (o.quantity - o.filledquantity) * o.price) := by
      simp [transferTok, not_lt.mpr hv]
    have e5 : liftO (cSub s.market.total_collateral_locked
        ((o.quantity - o.filledquantity) * o.price)) PErr.MathOverflow =
        .ok (s.market.total_collateral_locked -
          (o.quantity - o.filledquantity) * o.price) := by simp [liftO, cSub, htot]
    simp [cancelOrder, hfind, not_le.mpr hdl, hst, howner, e1, e2, e3, e4, e5,
      exbind_ok, expure_bind]
  · intro now u oid s o tt ob bal hdl hst hfind howner hfq hacct hlo hesc
    have e1 : liftO (cSub o.quantity o.filledquantity) PErr.MathOverflow =
        .ok (o.quantity - o.filledquantity) := by simp [liftO, cSub, hfq]
    cases tt with
    | Yes =>
        simp only [outcomeAcctC] at hacct
        simp only [lockedOutcome] at hlo
        simp only [escrowBalC] at hesc
        refine ⟨{ s with
          orderbook := ob,
          user_stats_account.locked_yes :=
            s.user_stats_account.locked_yes - (o.quantity - o.filledquantity),
          yes_escrow := s.yes_escrow - (o.quantity - o.filledquantity),
          user_outcome_yes := some (bal + (o.quantity - o.filledquantity)) }, ?_,
          rfl, by simp [lockedOutcome], rfl, rfl, rfl, rfl, rfl, rfl,
          by simp [outcomeAcctC], by simp [escrowBalC]⟩
        have e2 : liftO s.user_outcome_yes PErr.OutcomeAccountRequired =
            .ok bal := by simp [liftO, hacct]
        have e3 : liftO (cSub s.user_stats_account.locked_yes
            (o.quantity - o.filledquantity)) PErr.MathOverflow =
            .ok (s.user_stats_account.locked_yes - (o.quantity - o.filledquantity)) := by
          simp [liftO, cSub, hlo]
        have e4 : transferTok s.yes_escrow bal (o.quantity - o.filledquantity) =
            .ok (s.yes_escrow - (o.quantity - o.filledquantity),
                 bal + (o.quantity - o.filledquantity)) := by
          simp [transferTok, not_lt.mpr hesc]
        simp [cancelOrder, hfind, not_le.mpr hdl, hst, howner, e1, e2, e3, e4,
          exbind_ok, expure_bind]
    | No =>
        simp only [outcomeAcctC] at hacct
        simp only [lockedOutcome] at hlo
        simp only [escrowBalC] at hesc
        refine ⟨{ s with
          orderbook := ob,
          user_stats_account.locked_no :=
            s.user_stats_account.locked_no - (o.quantity - o.filledquantity),
          no_escrow := s.no_escrow - (o.quantity - o.filledquantity),
          user_outcome_no := some (bal + (o.quantity - o.filledquantity)) }, ?_,
          rfl, by simp [lockedOutcome], rfl, rfl, rfl, rfl, rfl, rfl,
          by simp [outcomeAcctC], by simp [escrowBalC]⟩
        have e2 : liftO s.user_outcome_no PErr.OutcomeAccountRequired =
            .ok bal := by simp [liftO, hacct]
        have e3 : liftO (cSub s.user_stats_account.locked_no
            (o.quantity - o.filledquantity)) PErr.MathOverflow =
            .ok (s.user_stats_account.locked_no - (o.quantity - o.filledquantity)) := by
          simp [liftO, cSub, hlo]
        have e4 : transferTok s.no_escrow bal (o.quantity - o.filledquantity) =
            .ok (s.no_escrow - (o.quantity - o.filledquantity),
                 bal + (o.quantity - o.filledquantity)) := by
          simp [transferTok, not_lt.mpr hesc]
        simp [cancelOrder, hfind, not_le.mpr hdl, hst, howner, e1, e2, e3, e4,
          exbind_ok, expure_bind]

/-- `ok_or` on a checked add, as a single conditional. -/
theorem liftO_cAdd (a b : Nat) (e : PErr) :
    liftO (cAdd a b) e = if a + b ≤ U64MAX then .ok (a + b) else .error e := by
  by_cases h : a + b ≤ U64MAX <;> simp [cAdd, liftO, h]

/-- `ok_or` on a checked sub, as a single conditional. -/
theorem liftO_cSub (a b : Nat) (e : PErr) :
    liftO (cSub a b) e = if b ≤ a then .ok (a - b) else .error e := by
  by_cases h : b ≤ a <;> simp [cSub, liftO, h]

/-- `ok_or` on a checked mul, as a single conditional. -/
theorem liftO_cMul (a b : Nat) (e : PErr) :
    liftO (cMul a b) e = if a * b ≤ U64MAX then .ok (a * b) else .error e := by
  by_cases h : a * b ≤ U64MAX <;> simp [cMul, liftO, h]

/-- `ok_or` on a checked div, as a single conditional. -/
theorem liftO_cDiv (a b : Nat) (e : PErr) :
    liftO (cDiv a b) e = if b = 0 then .error e else .ok (a / b) := by
  by_cases h : b = 0 <;> simp [cDiv, liftO, h]

/-- A successful trade settlement only moves the two orders' filled
quantities forward by the fill size; every other order field is kept. -/
theorem applyMatch_shape {tt : TokenType} {isBuy : Bool} {order b : Order}
    {mq : Nat} {s : PlaceSt} {o2 b2 : Order} {s2 : PlaceSt}
    (h : applyMatch tt isBuy order b mq s = .ok (o2, b2, s2)) :
    o2 = { order with filledquantity := order.filledquantity + mq } ∧
    b2 = { b with filledquantity := b.filledquantity + mq } := by
  simp only [applyMatch, liftO_cAdd, liftO_cSub, liftO_cMul, bind, Except.bind,
    pure, Except.pure] at h
  repeat' split at h
  all_goals try split_ifs at *
  all_goals simp_all

/-- A successful counter-party credit in the market walk only rewrites
the supplied stats accounts. -/
theorem creditMarketCounterparty_shape {tt : TokenType} {side : OrderSide}
    {key mq ca : Nat} {s s2 : MarketSt}
    (h : creditMarketCounterparty tt side key mq ca s = .ok s2) :
    s2 = { s with remaining_accounts := s2.remaining_accounts } := by
  simp only [creditMarketCounterparty, bind, Except.bind, pure, Except.pure] at h
  repeat' split at h
  all_goals cases h <;> rfl

/-- Walk invariants of the limit-order matching loop: the queue never
grows, the incoming order's identity fields survive, at most
`maxIter - iteration` new fills are logged, each new fill has positive
quantity against a price-compatible counter-order of another user, and
resting orders of the requester survive untouched. -/
theorem matchLoop_spec {u : Nat} {tt : TokenType} {isBuy : Bool} {mi : Nat}
    {order : Order} {it : Nat} {fl : List Fill} {kept rest : List Order}
    {s : PlaceSt} {q : List Order} {o2 : Order} {i2 : Nat} {fl2 : List Fill}
    {s2 : PlaceSt}
    (h : matchLoop u tt isBuy mi order it fl kept rest s = .ok (q, o2, i2, fl2, s2)) :
    q.length ≤ kept.length + rest.length ∧
    o2.price = order.price ∧
    fl2.length ≤ fl.length + (mi - it) ∧
    (∀ f ∈ fl2, f ∈ fl ∨ (0 < f.qty ∧ f.owner ≠ u ∧
      (isBuy = true → f.price ≤ order.price) ∧
      (isBuy = false → order.price ≤ f.price))) ∧
    (∀ x, x.user_key = u → x ∈ kept ∨ x ∈ rest → x ∈ q) := by
  induction rest generalizing order it fl kept s with
  | nil =>
      simp only [matchLoop, Except.ok.injEq, Prod.mk.injEq] at h
      obtain ⟨hq, ho, hi, hf, hs⟩ := h
      subst hq ho hi hf
      refine ⟨by simp, rfl, by omega, fun f hf => Or.inl hf, ?_⟩
      intro x hx hmem
      rcases hmem with hk | hr
      · simp [List.mem_reverse, hk]
      · cases hr
  | cons b tl ih =>
      rw [matchLoop] at h
      by_cases hit : it < mi
      · rw [if_pos hit] at h
        by_cases hpm : (if isBuy = true then decide (b.price ≤ order.price)
            else decide (order.price ≤ b.price)) = true
        · rw [if_pos hpm] at h
          by_cases hbu : b.user_key = u
          · rw [if_pos hbu] at h
            obtain ⟨hA, hB, hC, hD, hE⟩ := ih h
            refine ⟨by simp at hA ⊢; omega, hB, hC, hD, ?_⟩
            intro x hx hmem
            refine hE x hx ?_
            rcases hmem with hk | hr
            · exact Or.inl (by simp [hk])
            · rcases List.mem_cons.mp hr with rfl | htl
              · exact Or.inl (by simp)
              · exact Or.inr htl
          · rw [if_neg hbu] at h
            rw [liftO_cSub] at h
            by_cases hql : order.filledquantity ≤ order.quantity
            · rw [if_pos hql] at h
              simp only [exbind_ok] at h
              rw [liftO_cSub] at h
              by_cases hbl : b.filledquantity ≤ b.quantity
              · rw [if_pos hbl] at h
                simp only [exbind_ok] at h
                by_cases hz : order.quantity - order.filledquantity = 0
                · rw [if_pos hz] at h
                  simp only [Except.ok.injEq, Prod.mk.injEq] at h
                  obtain ⟨hq, ho, hi, hf, hs⟩ := h
                  subst hq ho hi hf
                  refine ⟨by simp, rfl, by omega, fun f hf => Or.inl hf, ?_⟩
                  intro x hx hmem
                  simp only [List.mem_append, List.mem_reverse]
                  rcases hmem with hk | hr
                  · exact Or.inl hk
                  · exact Or.inr hr
                · rw [if_neg hz] at h
                  by_cases hz2 : b.quantity - b.filledquantity = 0
                  · rw [if_pos hz2] at h
                    obtain ⟨hA, hB, hC, hD, hE⟩ := ih h
                    refine ⟨by simp at hA ⊢; omega, hB, hC, hD, ?_⟩
                    intro x hx hmem
                    refine hE x hx ?_
                    rcases hmem with hk | hr
                    · exact Or.inl hk
                    · rcases List.mem_cons.mp hr with rfl | htl
                      · exact absurd hx hbu
                      · exact Or.inr htl
                  · rw [if_neg hz2] at h
                    cases ham : applyMatch tt isBuy order b
                        (min (order.quantity - order.filledquantity)
                          (b.quantity - b.filledquantity)) s with
                    | error e =>
                        rw [ham] at h
                        simp only [exbind_err] at h
                        cases h
                    | ok trip =>
                        obtain ⟨t1, t2, t3⟩ := trip
                        obtain ⟨hsh1, hsh2⟩ := applyMatch_shape ham
                        subst hsh1
                        subst hsh2
                        rw [ham] at h
                        simp only [exbind_ok] at h
                        have hqty : 0 < min (order.quantity - order.filledquantity)
                            (b.quantity - b.filledquantity) := by omega
                        have hstep : ∀ kp : List Order,
                            matchLoop u tt isBuy mi
                              { order with filledquantity := order.filledquantity + min (order.quantity - order.filledquantity) (b.quantity - b.filledquantity) }
                              (it + 1)
                              (fl ++ [⟨b.id, b.user_key, b.price, min (order.quantity - order.filledquantity) (b.quantity - b.filledquantity)⟩])
                              kp tl t3 = .ok (q, o2, i2, fl2, s2) →
                            q.length ≤ kp.length + tl.length ∧
                            o2.price = order.price ∧
                            fl2.length ≤ fl.length + (mi - it) ∧
                            (∀ f ∈ fl2, f ∈ fl ∨ (0 < f.qty ∧ f.owner ≠ u ∧
                              (isBuy = true → f.price ≤ order.price) ∧
                              (isBuy = false → order.price ≤ f.price))) ∧
                            (∀ x, x.user_key = u → x ∈ kp ∨ x ∈ tl → x ∈ q) := by
                          intro kp hrec
                          obtain ⟨hA, hB, hC, hD, hE⟩ := ih hrec
                          refine ⟨hA, by simpa using hB, by simp at hC; omega,
                            ?_, fun x hx hm => hE x hx hm⟩
                          intro f hf
                          rcases hD f hf with hin | hgood
                          · rcases List.mem_append.mp hin with hin | hone
                            · exact Or.inl hin
                            · refine Or.inr ?_
                              rcases List.mem_singleton.mp hone with rfl
                              refine ⟨hqty, hbu, ?_, ?_⟩
                              · intro hb
                                rw [hb] at hpm
                                simpa using hpm
                              · intro hb
                                rw [hb] at hpm
                                simpa using hpm
                          · refine Or.inr ⟨hgood.1, hgood.2.1, ?_, ?_⟩
                            · intro hb
                              simpa using hgood.2.2.1 hb
                            · intro hb
                              simpa using hgood.2.2.2 hb
                        by_cases hful : b.quantity ≤ b.filledquantity +
                            min (order.quantity - order.filledquantity)
                              (b.quantity - b.filledquantity)
                        · rw [if_pos hful] at h
                          obtain ⟨hA, hB, hC, hD, hE⟩ := hstep kept h
                          refine ⟨by simp; omega, hB, hC, hD, ?_⟩
                          intro x hx hmem
                          refine hE x hx ?_
                          rcases hmem with hk | hr
                          · exact Or.inl hk
                          · rcases List.mem_cons.mp hr with rfl | htl
                            · exact absurd hx hbu
                            · exact Or.inr htl
                        · rw [if_neg hful] at h
                          obtain ⟨hA, hB, hC, hD, hE⟩ :=
                            hstep ({ b with filledquantity := b.filledquantity + min (order.quantity - order.filledquantity) (b.quantity - b.filledquantity) } :: kept) h
                          refine ⟨by simp at hA ⊢; omega, hB, hC, hD, ?_⟩
                          intro x hx hmem
                          refine hE x hx ?_
                          rcases hmem with hk | hr
                          · exact Or.inl (by simp [hk])
                          · rcases List.mem_cons.mp hr with rfl | htl
                            · exact absurd hx hbu
                            · exact Or.inr htl
              · rw [if_neg hbl] at h
                simp only [exbind_err] at h
                cases h
            · rw [if_neg hql] at h
              simp only [exbind_err] at h
              cases h
        · rw [if_neg hpm] at h
          simp only [Except.ok.injEq, Prod.mk.injEq] at h
          obtain ⟨hq, ho, hi, hf, hs⟩ := h
          subst hq ho hi hf
          refine ⟨by simp, rfl, by omega, fun f hf => Or.inl hf, ?_⟩
          intro x hx hmem
          simp only [List.mem_append, List.mem_reverse]
          rcases hmem with hk | hr
          · exact Or.inl hk
          · exact Or.inr hr
      · rw [if_neg hit] at h
        simp only [Except.ok.injEq, Prod.mk.injEq] at h
        obtain ⟨hq, ho, hi, hf, hs⟩ := h
        subst hq ho hi hf
        refine ⟨by simp, rfl, by omega, fun f hf => Or.inl hf, ?_⟩
        intro x hx hmem
        simp only [List.mem_append, List.mem_reverse]
        rcases hmem with hk | hr
        · exact Or.inl hk
        · exact Or.inr hr

/-- Bumping the order-id counter does not change any queue. -/
theorem matchingQueue_next (ob : OrderBook) (n : Nat) (tt : TokenType) (side : OrderSide) :
    matchingQueue { ob with next_order_id := n } tt side = matchingQueue ob tt side := by
  cases tt <;> cases side <;> rfl

/-- Bumping the order-id counter does not change any queue. -/
theorem restingQueue_next (ob : OrderBook) (n : Nat) (tt : TokenType) (side : OrderSide) :
    restingQueue { ob with next_order_id := n } tt side = restingQueue ob tt side := by
  cases tt <;> cases side <;> rfl

/-- Writing back the matched queue rewrites exactly one of the four
queues: any queue of the result is the original one or the written one. -/
theorem restingQueue_setMatchingQueue (ob : OrderBook) (tt : TokenType)
    (side : OrderSide) (q : List Order) (tt2 : TokenType) (sd2 : OrderSide) :
    restingQueue (setMatchingQueue ob tt side q) tt2 sd2 = restingQueue ob tt2 sd2 ∨
    restingQueue (setMatchingQueue ob tt side q) tt2 sd2 = q := by
  cases tt <;> cases side <;> cases tt2 <;> cases sd2 <;>
    simp [setMatchingQueue, restingQueue]

/-- Reading back the queue just written. -/
theorem restingQueue_setRestingQueue_eq (ob : OrderBook) (tt : TokenType)
    (side : OrderSide) (q : List Order) :
    restingQueue (setRestingQueue ob tt side q) tt side = q := by
  cases tt <;> cases side <;> rfl

/-- Writing one resting queue leaves the other three unchanged. -/
theorem restingQueue_setRestingQueue_ne (ob : OrderBook) (tt : TokenType)
    (side : OrderSide) (q : List Order) (tt2 : TokenType) (sd2 : OrderSide)
    (h : ¬(tt2 = tt ∧ sd2 = side)) :
    restingQueue (setRestingQueue ob tt side q) tt2 sd2 = restingQueue ob tt2 sd2 := by
  cases tt <;> cases side <;> cases tt2 <;> cases sd2 <;> simp_all [setRestingQueue, restingQueue]

/-- The per-side reservation step does not touch the order book or the
supplied counter-party accounts. -/
theorem placeReserve_book {side : OrderSide} {tt : TokenType}
    {qty amount : Nat} {s s1 : PlaceSt}
    (h : placeReserve side tt qty amount s = .ok s1) :
    s1.orderbook = s.orderbook ∧ s1.remaining_accounts = s.remaining_accounts := by
  simp only [placeReserve, liftO, transferTok, bind, Except.bind, pure,
    Except.pure] at h
  repeat' split at h
  all_goals cases h <;> exact ⟨rfl, rfl⟩

/-- The reservation phase of order placement does not touch the order
book or the supplied counter-party accounts. -/
theorem placePrep_book {now : Int} {u mid : Nat} {side : OrderSide} {tt : TokenType}
    {qty price mi : Nat} {s s1 : PlaceSt}
    (h : placePrep now u mid side tt qty price mi s = .ok s1) :
    s1.orderbook = s.orderbook ∧ s1.remaining_accounts = s.remaining_accounts := by
  simp only [placePrep, bind, Except.bind, pure, Except.pure] at h
  repeat' split at h
  all_goals first
    | exact (Except.noConfusion h)
    | (obtain ⟨h1, h2⟩ := placeReserve_book h; exact ⟨h1, h2⟩)

/-- A successful trade settlement does not touch the order book or any
token account balance. -/
theorem applyMatch_state {tt : TokenType} {isBuy : Bool} {order b : Order}
    {mq : Nat} {s : PlaceSt} {o2 b2 : Order} {s2 : PlaceSt}
    (h : applyMatch tt isBuy order b mq s = .ok (o2, b2, s2)) :
    s2.orderbook = s.orderbook ∧ s2.user_collateral = s.user_collateral ∧
    s2.user_outcome_yes = s.user_outcome_yes ∧
    s2.user_outcome_no = s.user_outcome_no ∧
    s2.collateral_vault = s.collateral_vault ∧
    s2.yes_escrow = s.yes_escrow ∧ s2.no_escrow = s.no_escrow := by
  simp only [applyMatch, liftO_cAdd, liftO_cSub, liftO_cMul, bind, Except.bind,
    pure, Except.pure] at h
  repeat' split at h
  all_goals try exact (Except.noConfusion h)
  all_goals simp only [Except.ok.injEq, Prod.mk.injEq] at h
  all_goals obtain ⟨h1, h2, h3⟩ := h
  all_goals subst h3
  all_goals exact ⟨rfl, rfl, rfl, rfl, rfl, rfl, rfl⟩

/-- The limit-order walk does not touch the order book or any token
account balance. -/
theorem matchLoop_state {u : Nat} {tt : TokenType} {isBuy : Bool} {mi : Nat}
    {order : Order} {it : Nat} {fl : List Fill} {kept rest : List Order}
    {s : PlaceSt} {q : List Order} {o2 : Order} {i2 : Nat} {fl2 : List Fill}
    {s2 : PlaceSt}
    (h : matchLoop u tt isBuy mi order it fl kept rest s = .ok (q, o2, i2, fl2, s2)) :
    s2.orderbook = s.orderbook ∧ s2.user_collateral = s.user_collateral ∧
    s2.user_outcome_yes = s.user_outcome_yes ∧
    s2.user_outcome_no = s.user_outcome_no ∧
    s2.collateral_vault = s.collateral_vault ∧
    s2.yes_escrow = s.yes_escrow ∧ s2.no_escrow = s.no_escrow := by
  induction rest generalizing order it fl kept s with
  | nil =>
      simp only [matchLoop, Except.ok.injEq, Prod.mk.injEq] at h
      obtain ⟨-, -, -, -, hs⟩ := h
      subst hs
      exact ⟨rfl, rfl, rfl, rfl, rfl, rfl, rfl⟩
  | cons b tl ih =>
      rw [matchLoop] at h
      by_cases hit : it < mi
      · rw [if_pos hit] at h
        by_cases hpm : (if isBuy = true then decide (b.price ≤ order.price)
            else decide (order.price ≤ b.price)) = true
        · rw [if_pos hpm] at h
          by_cases hbu : b.user_key = u
          · rw [if_pos hbu] at h
            exact ih h
          · rw [if_neg hbu] at h
            rw [liftO_cSub] at h
            by_cases hql : order.filledquantity ≤ order.quantity
            · rw [if_pos hql] at h
              simp only [exbind_ok] at h
              rw [liftO_cSub] at h
              by_cases hbl : b.filledquantity ≤ b.quantity
              · rw [if_pos hbl] at h
                simp only [exbind_ok] at h
                by_cases hz : order.quantity - order.filledquantity = 0
                · rw [if_pos hz] at h
                  simp only [Except.ok.injEq, Prod.mk.injEq] at h
                  obtain ⟨-, -, -, -, hs⟩ := h
                  subst hs
                  exact ⟨rfl, rfl, rfl, rfl, rfl, rfl, rfl⟩
                · rw [if_neg hz] at h
                  by_cases hz2 : b.quantity - b.filledquantity = 0
                  · rw [if_pos hz2] at h
                    exact ih h
                  · rw [if_neg hz2] at h
                    cases ham : applyMatch tt isBuy order b
                        (min (order.quantity - order.filledquantity)
                          (b.quantity - b.filledquantity)) s with
                    | error e =>
                        rw [ham] at h
                        simp only [exbind_err] at h
                        cases h
                    | ok trip =>
                        obtain ⟨t1, t2, t3⟩ := trip
                        obtain ⟨g1, g2, g3, g4, g5, g6, g7⟩ := applyMatch_state ham
                        rw [ham] at h
                        simp only [exbind_ok] at h
                        have hcont : s2.orderbook = t3.orderbook ∧
                            s2.user_collateral = t3.user_collateral ∧
                            s2.user_outcome_yes = t3.user_outcome_yes ∧
                            s2.user_outcome_no = t3.user_outcome_no ∧
                            s2.collateral_vault = t3.collateral_vault ∧
                            s2.yes_escrow = t3.yes_escrow ∧
                            s2.no_escrow = t3.no_escrow := by
                          split at h
                          · exact ih h
                          · exact ih h
                        refine ⟨hcont.1.trans g1, hcont.2.1.trans g2,
                          hcont.2.2.1.trans g3, hcont.2.2.2.1.trans g4,
                          hcont.2.2.2.2.1.trans g5, hcont.2.2.2.2.2.1.trans g6,
                          hcont.2.2.2.2.2.2.trans g7⟩
              · rw [if_neg hbl] at h
                simp only [exbind_err] at h
                cases h
            · rw [if_neg hql] at h
              simp only [exbind_err] at h
              cases h
        · rw [if_neg hpm] at h
          simp only [Except.ok.injEq, Prod.mk.injEq] at h
          obtain ⟨-, -, -, -, hs⟩ := h
          subst hs
          exact ⟨rfl, rfl, rfl, rfl, rfl, rfl, rfl⟩
      · rw [if_neg hit] at h
        simp only [Except.ok.injEq, Prod.mk.injEq] at h
        obtain ⟨-, -, -, -, hs⟩ := h
        subst hs
        exact ⟨rfl, rfl, rfl, rfl, rfl, rfl, rfl⟩

/-- Witness for C4: on `C4pre`, an unknown id fails with
`OrdernotFound`; user 2 cancelling user 1's order fails with
`NotAuthorized`; user 1 cancelling the buy order releases exactly the
unfilled 30 collateral; user 1 cancelling the sell order releases
exactly the unfilled 15 YES tokens - claimables untouched throughout. -/
theorem C4_witness :
    cancelOrder 0 1 99 C4pre = .error .OrdernotFound ∧
    cancelOrder 0 2 1 C4pre = .error .NotAuthorized ∧
    cancelOrder 0 1 1 C4pre = .ok C4postBuy ∧
    (∃ s', cancelOrder 0 1 2 C4pre = .ok s' ∧
      s'.orderbook = { emptyBook with yes_buy_orders := [C4buyOrd] } ∧
      lockedOutcome s'.user_stats_account TokenType.Yes =
        lockedOutcome C4pre.user_stats_account TokenType.Yes - 15 ∧
      s'.user_stats_account.claimable_yes = C4pre.user_stats_account.claimable_yes ∧
      s'.user_stats_account.claimable_no = C4pre.user_stats_account.claimable_no ∧
      s'.user_stats_account.claimable_collateral =
        C4pre.user_stats_account.claimable_collateral ∧
      s'.user_stats_account.locked_collateral =
        C4pre.user_stats_account.locked_collateral ∧
      s'.market = C4pre.market ∧
      s'.user_collateral = C4pre.user_collateral ∧
      outcomeAcctC s' TokenType.Yes = some (2 + 15) ∧
      escrowBalC s' TokenType.Yes = escrowBalC C4pre TokenType.Yes - 15) :=
  ⟨C4_cancel_releases_exactly_unfilled.1 0 1 99 C4pre (by decide) (by rfl) (by decide),
   C4_cancel_releases_exactly_unfilled.2.1 0 2 1 C4pre C4buyOrd .Buy .Yes
     { emptyBook with yes_sell_orders := [C4sellOrd] } (by decide) (by rfl) (by rfl)
     (by decide),
   C4_cancel_releases_exactly_unfilled.2.2.1 0 1 1 C4pre C4buyOrd .Yes
     { emptyBook with yes_sell_orders := [C4sellOrd] } (by decide) (by rfl) (by rfl)
     (by rfl) (by decide) (by decide) (by decide) (by decide) (by decide),
   C4_cancel_releases_exactly_unfilled.2.2.2 0 1 2 C4pre C4sellOrd .Yes
     { emptyBook with yes_buy_orders := [C4buyOrd] } 2 (by decide) (by rfl) (by rfl)
     (by rfl) (by decide) (by rfl) (by decide) (by decide)⟩

/-- Witness for C2: the spec's own numbers at step level - a fill of 40
between the incoming buy (limit 5, 200 reserved) and the resting sell
at 5 moves 40 YES to the buyer's claimable balance, releases the 200,
credits the seller 200 claimable collateral and releases 40 of the
seller's locked YES. -/
theorem C2_witness :
    applyMatch TokenType.Yes true C2ordIn C2ordRest 40 C2stepPre =
      .ok ({ C2ordIn with filledquantity := 40 },
           { C2ordRest with filledquantity := 40 },
           { C2stepPre with
             user_stats_account := { freshStats 1 with claimable_yes := 40 },
             market := mkMarket,
             remaining_accounts :=
               [{ freshStats 2 with claimable_collateral := 200, locked_yes := 60 }] }) :=
  C2_incoming_buyer_trade_step.1 TokenType.Yes C2ordIn C2ordRest 40 C2stepPre [] []
    ({ freshStats 2 with locked_yes := 100 })
    (by decide) (by decide) (by decide) (by decide) (by decide) (by decide) (by decide)
    (by decide) (by decide) (by decide) rfl rfl (by simp)

/-- Witness for C3: resting the unfilled order `C3ord` on the empty YES
buy queue of `C3pre` produces exactly the sorted push. -/
theorem C3_witness :
    restingQueue C3post.orderbook TokenType.Yes OrderSide.Buy =
      (if OrderSide.Buy = OrderSide.Buy then
        ((restingQueue C3pre.orderbook TokenType.Yes OrderSide.Buy) ++ [C3ord]).insertionSort
          (fun a b => b.price ≤ a.price)
      else
        ((restingQueue C3pre.orderbook TokenType.Yes OrderSide.Buy) ++ [C3ord]).insertionSort
          (fun a b => a.price ≤ b.price)) :=
  C3_queue_price_sorted_ties_by_insertion.1 TokenType.Yes OrderSide.Buy C3ord C3pre C3post
    (by decide) (by decide) rfl

/-- The queue an order matches against is one of the four resting
queues (namely the opposite-side queue of its outcome). -/
theorem matchingQueue_as_resting (ob : OrderBook) (tt : TokenType) (side : OrderSide) :
    ∃ sd2, matchingQueue ob tt side = restingQueue ob tt sd2 := by
  cases tt <;> cases side <;>
    first
      | exact ⟨OrderSide.Sell, rfl⟩
      | exact ⟨OrderSide.Buy, rfl⟩

/-- Remainder handling either leaves the book unchanged (fully filled,
or the IOC capacity fallback) or rests the order: the rewritten queue
then started strictly below capacity and grows by exactly one entry. -/
theorem handleRemainder_book {tt : TokenType} {side : OrderSide}
    {order : Order} {s s2 : PlaceSt}
    (h : handleRemainder tt side order s = .ok s2) :
    s2.orderbook = s.orderbook ∨
    ((restingQueue s.orderbook tt side).length < MAX_ORDERS_PER_SIDE ∧
     ∃ q, s2.orderbook = setRestingQueue s.orderbook tt side q ∧
       q.length = (restingQueue s.orderbook tt side).length + 1) := by
  simp only [handleRemainder, liftO_cSub, liftO_cAdd, liftO_cMul, bind,
    Except.bind, pure, Except.pure] at h
  repeat' split at h
  all_goals try exact (Except.noConfusion h)
  all_goals simp only [Except.ok.injEq] at h
  all_goals subst h
  all_goals first
    | exact Or.inl rfl
    | exact Or.inr ⟨by omega, _, rfl, by simp [List.length_insertionSort]⟩

/-- A successful `placeOrder` run decomposes into its four phases:
reservation, order-id bump, matching walk, and remainder handling. -/
theorem placeOrder_ok_decomp {now : Int} {u mid : Nat} {side : OrderSide}
    {tt : TokenType} {qty price mi : Nat} {s s2 : PlaceSt} {r : PlaceResult}
    (h : placeOrder now u mid side tt qty price mi s = .ok (s2, r)) :
    ∃ s1 nid q2 o2 i2 fl2 sM,
      placePrep now u mid side tt qty price mi s = .ok s1 ∧
      liftO (cAdd s1.orderbook.next_order_id 1) PErr.MathOverflow = .ok nid ∧
      matchLoop u tt (side == OrderSide.Buy) mi
        { id := s1.orderbook.next_order_id, market_id := s1.market.market_id,
          user_key := u, side := side, token_type := tt, price := price,
          quantity := qty, filledquantity := 0, timestamp := now }
        0 [] [] (matchingQueue s1.orderbook tt side)
        { s1 with orderbook.next_order_id := nid } = .ok (q2, o2, i2, fl2, sM) ∧
      handleRemainder tt side o2
        { sM with orderbook := setMatchingQueue sM.orderbook tt side q2 } = .ok s2 ∧
      r = { order_id := s1.orderbook.next_order_id, fills := fl2,
            iterations := i2 } := by
  unfold placeOrder at h
  cases hprep : placePrep now u mid side tt qty price mi s with
  | error e => rw [hprep] at h; simp only [exbind_err] at h; cases h
  | ok s1 =>
    rw [hprep] at h
    simp only [exbind_ok] at h
    cases hnid : liftO (cAdd s1.orderbook.next_order_id 1) PErr.MathOverflow with
    | error e => rw [hnid] at h; simp only [exbind_err] at h; cases h
    | ok nid =>
      rw [hnid] at h
      simp only [exbind_ok, matchingQueue_next] at h
      cases hml : matchLoop u tt (side == OrderSide.Buy) mi
          { id := s1.orderbook.next_order_id, market_id := s1.market.market_id,
            user_key := u, side := side, token_type := tt, price := price,
            quantity := qty, filledquantity := 0, timestamp := now }
          0 [] [] (matchingQueue s1.orderbook tt side)
          { s1 with orderbook.next_order_id := nid } with
      | error e => rw [hml] at h; simp only [exbind_err] at h; cases h
      | ok quint =>
        obtain ⟨q2, o2, i2, fl2, sM⟩ := quint
        rw [hml] at h
        simp only [exbind_ok] at h
        cases hrem : handleRemainder tt side o2
            { sM with orderbook := setMatchingQueue sM.orderbook tt side q2 } with
        | error e => rw [hrem] at h; simp only [exbind_err] at h; cases h
        | ok sF =>
          rw [hrem] at h
          simp only [exbind_ok, pure, Except.pure] at h
          cases h
          exact ⟨s1, nid, q2, o2, i2, fl2, sM, rfl, hnid, hml, hrem, rfl⟩

/-- C7: the four resting queues never exceed `MAX_ORDERS_PER_SIDE = 100`
entries - a successful `placeOrder` preserves the capacity bound on
every queue - and a remainder that would rest on a queue already at
capacity is not queued: the book is left unchanged (so the queue stays
at 100) and the whole unfilled reservation (`unfilled * price`
collateral for a Buy, `unfilled` outcome tokens for a Sell) moves from
the requester's locked balance directly to the matching claimable
balance, touching nothing else. -/
theorem C7_queue_capacity_and_ioc_fallback :
    (∀ (now : Int) (u mid : Nat) (side : OrderSide) (tt : TokenType)
       (qty price mi : Nat) (s s2 : PlaceSt) (r : PlaceResult),
       placeOrder now u mid side tt qty price mi s = .ok (s2, r) →
       (∀ tt2 sd2, (restingQueue s.orderbook tt2 sd2).length ≤ MAX_ORDERS_PER_SIDE) →
       (∀ tt2 sd2, (restingQueue s2.orderbook tt2 sd2).length ≤ MAX_ORDERS_PER_SIDE)) ∧
    (∀ (tt : TokenType) (side : OrderSide) (order : Order) (s s2 : PlaceSt),
       handleRemainder tt side order s = .ok s2 →
       order.filledquantity < order.quantity →
       MAX_ORDERS_PER_SIDE ≤ (restingQueue s.orderbook tt side).length →
       s2.orderbook = s.orderbook ∧
       s2 = { s with user_stats_account := s2.user_stats_account } ∧
       (side = OrderSide.Buy →
         (order.quantity - order.filledquantity) * order.price ≤
           s.user_stats_account.locked_collateral ∧
         s2.user_stats_account = { s.user_stats_account with
           locked_collateral := s.user_stats_account.locked_collateral -
             (order.quantity - order.filledquantity) * order.price,
           claimable_collateral := s.user_stats_account.claimable_collateral +
             (order.quantity - order.filledquantity) * order.price }) ∧
       (side = OrderSide.Sell → tt = TokenType.Yes →
         order.quantity - order.filledquantity ≤ s.user_stats_account.locked_yes ∧
         s2.user_stats_account = { s.user_stats_account with
           locked_yes := s.user_stats_account.locked_yes -
             (order.quantity - order.filledquantity),
           claimable_yes := s.user_stats_account.claimable_yes +
             (order.quantity - order.filledquantity) }) ∧
       (side = OrderSide.Sell → tt = TokenType.No →
         order.quantity - order.filledquantity ≤ s.user_stats_account.locked_no ∧
         s2.user_stats_account = { s.user_stats_account with
           locked_no := s.user_stats_account.locked_no -
             (order.quantity - order.filledquantity),
           claimable_no := s.user_stats_account.claimable_no +
             (order.quantity - order.filledquantity) })) := by
  constructor
  · intro now u mid side tt qty price mi s s2 r h hcap tt2 sd2
    obtain ⟨s1, nid, q2, o2, i2, fl2, sM, hprep, hnid, hml, hrem, -⟩ :=
      placeOrder_ok_decomp h
    have hb1 : s1.orderbook = s.orderbook := (placePrep_book hprep).1
    have hbM : sM.orderbook = { s1.orderbook with next_order_id := nid } :=
      (matchLoop_state hml).1
    have hq2 : q2.length ≤ (matchingQueue s1.orderbook tt side).length := by
      simpa using (matchLoop_spec hml).1
    have hobM : ∀ tt3 sd3,
        (restingQueue (setMatchingQueue sM.orderbook tt side q2) tt3 sd3).length ≤
          MAX_ORDERS_PER_SIDE := by
      intro tt3 sd3
      rcases restingQueue_setMatchingQueue sM.orderbook tt side q2 tt3 sd3 with he | he
      · rw [he, hbM, restingQueue_next, hb1]
        exact hcap tt3 sd3
      · rw [he]
        obtain ⟨sd4, hms⟩ := matchingQueue_as_resting s1.orderbook tt side
        rw [hms, hb1] at hq2
        exact le_trans hq2 (hcap tt sd4)
    rcases handleRemainder_book hrem with hrb | ⟨hlt, qn, hrb, hqn⟩
    · rw [hrb]
      exact hobM tt2 sd2
    · rw [hrb]
      by_cases hps : tt2 = tt ∧ sd2 = side
      · obtain ⟨rfl, rfl⟩ := hps
        rw [restingQueue_setRestingQueue_eq, hqn]
        have hlt2 := hlt
        omega
      · rw [restingQueue_setRestingQueue_ne _ _ _ _ _ _ hps]
        exact hobM tt2 sd2
  · intro tt side order s s2 h hun hcap
    unfold handleRemainder at h
    rw [if_pos hun, liftO_cSub, if_pos (Nat.le_of_lt hun)] at h
    simp only [exbind_ok] at h
    rw [if_pos hcap] at h
    cases side with
    | Buy =>
      rw [if_pos rfl, liftO_cMul] at h
      by_cases hm : (order.quantity - order.filledquantity) * order.price ≤ U64MAX
      · rw [if_pos hm] at h
        simp only [exbind_ok] at h
        rw [liftO_cSub] at h
        by_cases hl : (order.quantity - order.filledquantity) * order.price ≤
            s.user_stats_account.locked_collateral
        · rw [if_pos hl] at h
          simp only [exbind_ok] at h
          rw [liftO_cAdd] at h
          by_cases hc : s.user_stats_account.claimable_collateral +
              (order.quantity - order.filledquantity) * order.price ≤ U64MAX
          · rw [if_pos hc] at h
            simp only [exbind_ok] at h
            cases h
            exact ⟨rfl, rfl, fun _ => ⟨hl, rfl⟩,
              fun hss _ => absurd hss (by decide),
              fun hss _ => absurd hss (by decide)⟩
          · rw [if_neg hc] at h
            simp only [exbind_err] at h
            cases h
        · rw [if_neg hl] at h
          simp only [exbind_err] at h
          cases h
      · rw [if_neg hm] at h
        simp only [exbind_err] at h
        cases h
    | Sell =>
      rw [if_neg (by decide : ¬(OrderSide.Sell = OrderSide.Buy))] at h
      cases tt with
      | Yes =>
        simp only [liftO_cSub, liftO_cAdd] at h
        by_cases hl : order.quantity - order.filledquantity ≤
            s.user_stats_account.locked_yes
        · rw [if_pos hl] at h
          simp only [exbind_ok] at h
          by_cases hc : s.user_stats_account.claimable_yes +
              (order.quantity - order.filledquantity) ≤ U64MAX
          · rw [if_pos hc] at h
            simp only [exbind_ok] at h
            cases h
            exact ⟨rfl, rfl, fun hss => absurd hss (by decide),
              fun _ _ => ⟨hl, rfl⟩,
              fun _ htt => absurd htt (by decide)⟩
          · rw [if_neg hc] at h
            simp only [exbind_err] at h
            cases h
        · rw [if_neg hl] at h
          simp only [exbind_err] at h
          cases h
      | No =>
        simp only [liftO_cSub, liftO_cAdd] at h
        by_cases hl : order.quantity - order.filledquantity ≤
            s.user_stats_account.locked_no
        · rw [if_pos hl] at h
          simp only [exbind_ok] at h
          by_cases hc : s.user_stats_account.claimable_no +
              (order.quantity - order.filledquantity) ≤ U64MAX
          · rw [if_pos hc] at h
            simp only [exbind_ok] at h
            cases h
            exact ⟨rfl, rfl, fun hss => absurd hss (by decide),
              fun _ htt => absurd htt (by decide),
              fun _ _ => ⟨hl, rfl⟩⟩
          · rw [if_neg hc] at h
            simp only [exbind_err] at h
            cases h
        · rw [if_neg hl] at h
          simp only [exbind_err] at h
          cases h

/-- Witness for C7: placing one resting order on the empty-book state
`C3pre` keeps every queue within capacity, and handling the remainder of
`C7ord` against the full YES buy queue of `C7pre` leaves the book (and
its 100-entry queue) unchanged while converting the 32 still-reserved
collateral from locked to claimable. -/
theorem C7_witness :
    (placeOrder 0 1 7 .Buy .Yes 1 10 1 C3pre =
       .ok (C7place2, { order_id := 10, fills := [], iterations := 0 }) ∧
     (∀ tt2 sd2, (restingQueue C3pre.orderbook tt2 sd2).length ≤ MAX_ORDERS_PER_SIDE) ∧
     (restingQueue C7place2.orderbook TokenType.Yes OrderSide.Buy).length ≤
       MAX_ORDERS_PER_SIDE) ∧
    (handleRemainder TokenType.Yes OrderSide.Buy C7ord C7pre = .ok C7post ∧
     C7ord.filledquantity < C7ord.quantity ∧
     MAX_ORDERS_PER_SIDE ≤ (restingQueue C7pre.orderbook TokenType.Yes OrderSide.Buy).length ∧
     C7post.orderbook = C7pre.orderbook ∧
     C7post.user_stats_account = { C7pre.user_stats_account with
       locked_collateral := C7pre.user_stats_account.locked_collateral -
         (C7ord.quantity - C7ord.filledquantity) * C7ord.price,
       claimable_collateral := C7pre.user_stats_account.claimable_collateral +
         (C7ord.quantity - C7ord.filledquantity) * C7ord.price }) :=
  ⟨⟨rfl, by intro tt2 sd2; cases tt2 <;> cases sd2 <;> decide,
    C7_queue_capacity_and_ioc_fallback.1 0 1 7 .Buy .Yes 1 10 1 C3pre C7place2
      { order_id := 10, fills := [], iterations := 0 } rfl
      (by intro tt2 sd2; cases tt2 <;> cases sd2 <;> decide)
      TokenType.Yes OrderSide.Buy⟩,
   rfl, by decide, by decide,
   (C7_queue_capacity_and_ioc_fallback.2 TokenType.Yes OrderSide.Buy C7ord C7pre
      C7post rfl (by decide) (by decide)).1,
   ((C7_queue_capacity_and_ioc_fallback.2 TokenType.Yes OrderSide.Buy C7ord C7pre
      C7post rfl (by decide) (by decide)).2.2.1 rfl).2⟩

/-- The walk's iteration counter moves in lock-step with the fill list:
an iteration is consumed exactly when a fill is appended, the counter
never decreases, and it never passes `maxIter`. -/
theorem matchLoop_iter_fill {u : Nat} {tt : TokenType} {isBuy : Bool} {mi : Nat}
    {order : Order} {it : Nat} {fl : List Fill} {kept rest : List Order}
    {s : PlaceSt} {q : List Order} {o2 : Order} {i2 : Nat} {fl2 : List Fill}
    {s2 : PlaceSt}
    (h : matchLoop u tt isBuy mi order it fl kept rest s = .ok (q, o2, i2, fl2, s2)) :
    fl2.length + it = fl.length + i2 ∧ it ≤ i2 ∧ (it ≤ mi → i2 ≤ mi) := by
  induction rest generalizing order it fl kept s with
  | nil =>
      simp only [matchLoop, Except.ok.injEq, Prod.mk.injEq] at h
      obtain ⟨-, -, hi, hf, -⟩ := h
      subst hi hf
      exact ⟨rfl, le_refl it, fun hm => hm⟩
  | cons b tl ih =>
      rw [matchLoop] at h
      by_cases hit : it < mi
      · rw [if_pos hit] at h
        by_cases hpm : (if isBuy = true then decide (b.price ≤ order.price)
            else decide (order.price ≤ b.price)) = true
        · rw [if_pos hpm] at h
          by_cases hbu : b.user_key = u
          · rw [if_pos hbu] at h
            exact ih h
          · rw [if_neg hbu] at h
            rw [liftO_cSub] at h
            by_cases hql : order.filledquantity ≤ order.quantity
            · rw [if_pos hql] at h
              simp only [exbind_ok] at h
              rw [liftO_cSub] at h
              by_cases hbl : b.filledquantity ≤ b.quantity
              · rw [if_pos hbl] at h
                simp only [exbind_ok] at h
                by_cases hz : order.quantity - order.filledquantity = 0
                · rw [if_pos hz] at h
                  simp only [Except.ok.injEq, Prod.mk.injEq] at h
                  obtain ⟨-, -, hi, hf, -⟩ := h
                  subst hi hf
                  exact ⟨rfl, le_refl it, fun hm => hm⟩
                · rw [if_neg hz] at h
                  by_cases hz2 : b.quantity - b.filledquantity = 0
                  · rw [if_pos hz2] at h
                    exact ih h
                  · rw [if_neg hz2] at h
                    cases ham : applyMatch tt isBuy order b
                        (min (order.quantity - order.filledquantity)
                          (b.quantity - b.filledquantity)) s with
                    | error e =>
                        rw [ham] at h
                        simp only [exbind_err] at h
                        cases h
                    | ok trip =>
                        obtain ⟨t1, t2, t3⟩ := trip
                        rw [ham] at h
                        simp only [exbind_ok] at h
                        have hres : fl2.length + (it + 1) =
                            (fl ++ [(⟨b.id, b.user_key, b.price, min (order.quantity - order.filledquantity) (b.quantity - b.filledquantity)⟩ : Fill)]).length + i2 ∧
                            it + 1 ≤ i2 ∧ (it + 1 ≤ mi → i2 ≤ mi) := by
                          split at h
                          · exact ih h
                          · exact ih h
                        have hlen : (fl ++ [(⟨b.id, b.user_key, b.price, min (order.quantity - order.filledquantity) (b.quantity - b.filledquantity)⟩ : Fill)]).length = fl.length + 1 := by
                          simp
                        rw [hlen] at hres
                        exact ⟨by omega, by omega, fun hm => hres.2.2 (by omega)⟩
              · rw [if_neg hbl] at h
                simp only [exbind_err] at h
                cases h
            · rw [if_neg hql] at h
              simp only [exbind_err] at h
              cases h
        · rw [if_neg hpm] at h
          simp only [Except.ok.injEq, Prod.mk.injEq] at h
          obtain ⟨-, -, hi, hf, -⟩ := h
          subst hi hf
          exact ⟨rfl, le_refl it, fun hm => hm⟩
      · rw [if_neg hit] at h
        simp only [Except.ok.injEq, Prod.mk.injEq] at h
        obtain ⟨-, -, hi, hf, -⟩ := h
        subst hi hf
        exact ⟨rfl, le_refl it, fun hm => hm⟩

/-- C8: the limit-order walk applies at most `max_iteration` trade
steps, and an iteration is consumed exactly when a fill is applied -
never for a skipped same-user order or a dropped zero-remaining resting
order - each applied fill being positive, foreign and price-compatible;
concretely, with `max_iteration = 1` against two matchable resting
sells, exactly one trade step executes and the 2-token remainder then
rests on the book per the normal remainder rule. -/
theorem C8_iteration_cap_and_consumption :
    (∀ (u : Nat) (tt : TokenType) (isBuy : Bool) (mi : Nat) (order : Order)
       (it : Nat) (fl : List Fill) (kept rest : List Order) (s : PlaceSt)
       (q : List Order) (o2 : Order) (i2 : Nat) (fl2 : List Fill) (s2 : PlaceSt),
       matchLoop u tt isBuy mi order it fl kept rest s = .ok (q, o2, i2, fl2, s2) →
       fl2.length + it = fl.length + i2 ∧ it ≤ i2 ∧ (it ≤ mi → i2 ≤ mi) ∧
       (∀ f ∈ fl2, f ∈ fl ∨ (0 < f.qty ∧ f.owner ≠ u ∧
         (isBuy = true → f.price ≤ order.price) ∧
         (isBuy = false → order.price ≤ f.price)))) ∧
    matchLoop 1 TokenType.Yes true 1 C8order 0 [] [] [C8ordA, C8ordB] C8mid =
      .ok ([C8ordB], { C8order with filledquantity := 3 }, 1, [⟨1, 2, 5, 3⟩], C8mid2) ∧
    placeOrder 0 1 7 .Buy .Yes 5 10 1 C8pre =
      .ok (C8post, { order_id := 10, fills := [⟨1, 2, 5, 3⟩], iterations := 1 }) := by
  refine ⟨?_, rfl, rfl⟩
  intro u tt isBuy mi order it fl kept rest s q o2 i2 fl2 s2 h
  obtain ⟨h1, h2, h3⟩ := matchLoop_iter_fill h
  exact ⟨h1, h2, h3, (matchLoop_spec h).2.2.2.1⟩

/-- Witness for C8: in the two-resting-sells scenario the walk with
`max_iteration = 1` produces exactly one fill while consuming exactly
one iteration (fill count equals consumed iterations, and the counter
stays within the cap). -/
theorem C8_witness :
    matchLoop 1 TokenType.Yes true 1 C8order 0 [] [] [C8ordA, C8ordB] C8mid =
      .ok ([C8ordB], { C8order with filledquantity := 3 }, 1, [⟨1, 2, 5, 3⟩], C8mid2) ∧
    ([(⟨1, 2, 5, 3⟩ : Fill)].length + 0 = ([] : List Fill).length + 1) ∧
    ((0 : Nat) ≤ 1 → (1 : Nat) ≤ 1) :=
  ⟨rfl,
   (C8_iteration_cap_and_consumption.1 1 TokenType.Yes true 1 C8order 0 [] []
      [C8ordA, C8ordB] C8mid [C8ordB] { C8order with filledquantity := 3 } 1
      [⟨1, 2, 5, 3⟩] C8mid2 rfl).1,
   (C8_iteration_cap_and_consumption.1 1 TokenType.Yes true 1 C8order 0 [] []
      [C8ordA, C8ordB] C8mid [C8ordB] { C8order with filledquantity := 3 } 1
      [⟨1, 2, 5, 3⟩] C8mid2 rfl).2.2.1⟩

/-- The market-order walk applies no fill to the requester's own resting
orders, and every own resting order that still has an unfilled remainder
survives the walk in the final queue unchanged. -/
theorem marketLoop_self {u : Nat} {tt : TokenType} {side : OrderSide} {mi : Nat}
    {it ra fq : Nat} {fl : List Fill} {kept rest : List Order} {s : MarketSt}
    {q : List Order} {i2 r2 f2 : Nat} {fl2 : List Fill} {s2 : MarketSt}
    (h : marketLoop u tt side mi it ra fq fl kept rest s = .ok (q, i2, r2, f2, fl2, s2)) :
    (∀ f ∈ fl2, f ∈ fl ∨ f.owner ≠ u) ∧
    (∀ x, x.user_key = u → x.filledquantity < x.quantity →
       x ∈ kept ∨ x ∈ rest → x ∈ q) := by
  induction rest generalizing it ra fq fl kept s with
  | nil =>
      simp only [marketLoop, Except.ok.injEq, Prod.mk.injEq] at h
      obtain ⟨hq, -, -, -, hf, -⟩ := h
      subst hq hf
      refine ⟨fun f hf => Or.inl hf, ?_⟩
      intro x hx hlt hmem
      rcases hmem with hk | hr
      · simp [List.mem_reverse, hk]
      · cases hr
  | cons b tl ih =>
      rw [marketLoop] at h
      by_cases hc : it < mi ∧ 0 < ra
      · rw [if_pos hc] at h
        rw [liftO_cSub] at h
        by_cases hbl : b.filledquantity ≤ b.quantity
        · rw [if_pos hbl] at h
          simp only [exbind_ok] at h
          by_cases hz : b.quantity - b.filledquantity = 0
          · rw [if_pos hz] at h
            obtain ⟨ha, hb⟩ := ih h
            refine ⟨ha, ?_⟩
            intro x hx hlt hmem
            refine hb x hx hlt ?_
            rcases hmem with hk | hr
            · exact Or.inl hk
            · rcases List.mem_cons.mp hr with rfl | htl
              · exact absurd hlt (by omega)
              · exact Or.inr htl
          · rw [if_neg hz] at h
            by_cases hbu : b.user_key = u
            · rw [if_pos hbu] at h
              obtain ⟨ha, hb⟩ := ih h
              refine ⟨ha, ?_⟩
              intro x hx hlt hmem
              refine hb x hx hlt ?_
              rcases hmem with hk | hr
              · exact Or.inl (List.mem_cons_of_mem b hk)
              · rcases List.mem_cons.mp hr with rfl | htl
                · exact Or.inl (List.mem_cons_self x kept)
                · exact Or.inr htl
            · rw [if_neg hbu] at h
              cases hmf : marketFill side ra b.price (b.quantity - b.filledquantity) with
              | error e =>
                  rw [hmf] at h
                  simp only [exbind_err] at h
                  cases h
              | ok mq =>
                  rw [hmf] at h
                  simp only [exbind_ok] at h
                  rw [liftO_cMul] at h
                  by_cases hcm : b.price * mq ≤ U64MAX
                  · rw [if_pos hcm] at h
                    simp only [exbind_ok] at h
                    rw [liftO_cAdd] at h
                    by_cases hcab : b.filledquantity + mq ≤ U64MAX
                    · rw [if_pos hcab] at h
                      simp only [exbind_ok] at h
                      cases hcons : marketConsume side ra fq mq (b.price * mq) with
                      | error e =>
                          rw [hcons] at h
                          simp only [exbind_err] at h
                          cases h
                      | ok pr =>
                          obtain ⟨r3, f3⟩ := pr
                          rw [hcons] at h
                          simp only [exbind_ok] at h
                          cases hcc : creditMarketCounterparty tt side b.user_key mq
                              (b.price * mq) s with
                          | error e =>
                              rw [hcc] at h
                              simp only [exbind_err] at h
                              cases h
                          | ok s3 =>
                              rw [hcc] at h
                              simp only [exbind_ok] at h
                              have hstep : (∀ f ∈ fl2, f ∈ (fl ++ [(⟨b.id, b.user_key, b.price, mq⟩ : Fill)]) ∨ f.owner ≠ u) ∧ (∀ x, x.user_key = u → x.filledquantity < x.quantity → x ∈ ({ b with filledquantity := b.filledquantity + mq } :: kept) ∨ x ∈ tl → x ∈ q) := by
                                split at h
                                · obtain ⟨ha, hb⟩ := ih h
                                  refine ⟨ha, ?_⟩
                                  intro x hx hlt hmem
                                  refine hb x hx hlt ?_
                                  rcases hmem with hk | hr
                                  · rcases List.mem_cons.mp hk with rfl | hk2
                                    · exact absurd hx hbu
                                    · exact Or.inl hk2
                                  · exact Or.inr hr
                                · obtain ⟨ha, hb⟩ := ih h
                                  exact ⟨ha, fun x hx hlt hmem => hb x hx hlt hmem⟩
                              obtain ⟨ha, hb⟩ := hstep
                              refine ⟨?_, ?_⟩
                              · intro f hf
                                rcases ha f hf with hfl | hfo
                                · rcases List.mem_append.mp hfl with hl | hr
                                  · exact Or.inl hl
                                  · rcases List.mem_singleton.mp hr with rfl
                                    exact Or.inr hbu
                                · exact Or.inr hfo
                              · intro x hx hlt hmem
                                refine hb x hx hlt ?_
                                rcases hmem with hk | hr
                                · exact Or.inl (List.mem_cons_of_mem _ hk)
                                · rcases List.mem_cons.mp hr with rfl | htl
                                  · exact absurd hx hbu
                                  · exact Or.inr htl
                    · rw [if_neg hcab] at h
                      simp only [exbind_err] at h
                      cases h
                  · rw [if_neg hcm] at h
                    simp only [exbind_err] at h
                    cases h
        · rw [if_neg hbl] at h
          simp only [exbind_err] at h
          cases h
      · rw [if_neg hc] at h
        simp only [Except.ok.injEq, Prod.mk.injEq] at h
        obtain ⟨hq, -, -, -, hf, -⟩ := h
        subst hq hf
        refine ⟨fun f hf => Or.inl hf, ?_⟩
        intro x hx hlt hmem
        simp only [List.mem_append, List.mem_reverse]
        rcases hmem with hk | hr
        · exact Or.inl hk
        · exact Or.inr hr

/-- C9: neither walk ever matches a resting order against its own
owner's incoming order - every applied fill belongs to another user -
and a skipped own resting order stays in the final queue as the very
same record (in the market walk, provided it still has an unfilled
remainder; a fully filled entry is dropped by the cleanup rule before
the owner is even examined); concretely, user 1's price-compatible
incoming sell applies no fill against user 1's own resting buy and
leaves it in place, and user 2's later identical sell does fill it. -/
theorem C9_no_self_trade :
    (∀ (u : Nat) (tt : TokenType) (isBuy : Bool) (mi : Nat) (order : Order)
       (it : Nat) (fl : List Fill) (kept rest : List Order) (s : PlaceSt)
       (q : List Order) (o2 : Order) (i2 : Nat) (fl2 : List Fill) (s2 : PlaceSt),
       matchLoop u tt isBuy mi order it fl kept rest s = .ok (q, o2, i2, fl2, s2) →
       (∀ f ∈ fl2, f ∈ fl ∨ f.owner ≠ u) ∧
       (∀ x, x.user_key = u → x ∈ kept ∨ x ∈ rest → x ∈ q)) ∧
    (∀ (u : Nat) (tt : TokenType) (side : OrderSide) (mi it ra fq : Nat)
       (fl : List Fill) (kept rest : List Order) (s : MarketSt)
       (q : List Order) (i2 r2 f2 : Nat) (fl2 : List Fill) (s2 : MarketSt),
       marketLoop u tt side mi it ra fq fl kept rest s = .ok (q, i2, r2, f2, fl2, s2) →
       (∀ f ∈ fl2, f ∈ fl ∨ f.owner ≠ u) ∧
       (∀ x, x.user_key = u → x.filledquantity < x.quantity →
          x ∈ kept ∨ x ∈ rest → x ∈ q)) ∧
    (placeOrder 0 1 7 .Sell .Yes 4 5 5 C9preA =
       .ok (C9postA, { order_id := 10, fills := [], iterations := 0 }) ∧
     C9postA.orderbook.yes_buy_orders = [C9restBuy] ∧
     (∃ s2 r2, placeOrder 0 2 7 .Sell .Yes 10 5 5 C9preB = .ok (s2, r2) ∧
        r2.fills = [⟨1, 1, 5, 10⟩])) := by
  refine ⟨?_, ?_, rfl, rfl, ⟨_, _, rfl, rfl⟩⟩
  · intro u tt isBuy mi order it fl kept rest s q o2 i2 fl2 s2 h
    obtain ⟨-, -, -, hf, hm⟩ := matchLoop_spec h
    exact ⟨fun f hmem => Or.imp_right (fun hp => hp.2.1) (hf f hmem), hm⟩
  · intro u tt side mi it ra fq fl kept rest s q i2 r2 f2 fl2 s2 h
    exact marketLoop_self h

/-- Witness for C9: user 1's own resting buy survives both walks - the
limit walk of the C9 scenario and a market-sell walk over the same
queue - appearing unchanged in the final queue, with no fill applied. -/
theorem C9_witness :
    (matchLoop 1 TokenType.Yes false 5 C9sellA 0 [] [] [C9restBuy] C9preA =
       .ok ([C9restBuy], C9sellA, 0, [], C9preA) ∧
     C9restBuy ∈ ([C9restBuy] : List Order)) ∧
    (marketLoop 1 TokenType.Yes OrderSide.Sell 5 0 10 0 [] [] [C9restBuy] C5marketPre =
       .ok ([C9restBuy], 0, 10, 0, [], C5marketPre) ∧
     C9restBuy.filledquantity < C9restBuy.quantity ∧
     C9restBuy ∈ ([C9restBuy] : List Order)) :=
  ⟨⟨rfl,
    (C9_no_self_trade.1 1 TokenType.Yes false 5 C9sellA 0 [] [] [C9restBuy] C9preA
       [C9restBuy] C9sellA 0 [] C9preA rfl).2 C9restBuy rfl
      (Or.inr (List.mem_singleton.mpr rfl))⟩,
   ⟨rfl, by decide,
    (C9_no_self_trade.2.1 1 TokenType.Yes OrderSide.Sell 5 0 10 0 [] [] [C9restBuy]
       C5marketPre [C9restBuy] 0 10 0 [] C5marketPre rfl).2 C9restBuy rfl (by decide)
      (Or.inr (List.mem_singleton.mpr rfl))⟩⟩

/-- A zero-size seller credit leaves the account unchanged (it only
checks the claimable-collateral bound). -/
theorem sellerCredit_zero (tt : TokenType) (st : UserStats)
    (h : st.claimable_collateral ≤ U64MAX) :
    sellerCredit tt 0 0 st = .ok st := by
  cases tt <;>
    · unfold sellerCredit
      rw [liftO_cAdd, if_pos (by simpa using h)]
      simp only [exbind_ok]
      rw [liftO_cSub, if_pos (Nat.zero_le _)]
      simp only [exbind_ok]
      rfl

/-- Scanning for a present counter-party with a zero-size seller credit
reports success and hands back the account list unchanged. -/
theorem creditFirst_zero {tt : TokenType} {key : Nat} {l : List UserStats}
    (hacc : ∀ a ∈ l, a.claimable_collateral ≤ U64MAX)
    (hmem : ∃ a ∈ l, a.user = key) :
    creditFirst key (sellerCredit tt 0 0) l = .ok (l, true) := by
  induction l with
  | nil =>
      obtain ⟨a, ha, -⟩ := hmem
      cases ha
  | cons a tl ih =>
      rw [creditFirst]
      by_cases hu : a.user = key
      · rw [if_pos hu, sellerCredit_zero tt a (hacc a (List.mem_cons_self a tl))]
        simp only [exbind_ok]
      · rw [if_neg hu]
        have hmem2 : ∃ x ∈ tl, x.user = key := by
          obtain ⟨x, hx, hxk⟩ := hmem
          rcases List.mem_cons.mp hx with rfl | htl
          · exact absurd hxk hu
          · exact ⟨x, htl, hxk⟩
        rw [ih (fun x hx => hacc x (List.mem_cons_of_mem a hx)) hmem2]
        simp only [exbind_ok]

/-- A market-buy walk facing only sells priced strictly above the whole
remaining collateral applies zero-size fills: every visited order
consumes an iteration and logs a zero-quantity fill, but no balance, no
order and no queue entry changes, and the walk stops only at the end of
the queue or at the iteration cap. -/
theorem marketLoop_zero_walk {u : Nat} {tt : TokenType} {mi : Nat} {ra fq : Nat}
    {s : MarketSt} (hra : 0 < ra) (hfq : fq ≤ U64MAX)
    (hacc : ∀ a ∈ s.remaining_accounts, a.claimable_collateral ≤ U64MAX) :
    ∀ (rest : List Order), (∀ b ∈ rest, ra < b.price ∧ b.user_key ≠ u ∧
        b.filledquantity < b.quantity ∧ b.filledquantity ≤ U64MAX ∧
        ∃ a ∈ s.remaining_accounts, a.user = b.user_key) →
      ∀ (it : Nat) (fl : List Fill) (kept : List Order), it ≤ mi →
      marketLoop u tt OrderSide.Buy mi it ra fq fl kept rest s =
        .ok (kept.reverse ++ rest, min mi (it + rest.length), ra, fq,
             fl ++ (rest.take (mi - it)).map (fun b => ⟨b.id, b.user_key, b.price, 0⟩), s) := by
  intro rest
  induction rest with
  | nil =>
      intro _ it fl kept hmi
      rw [marketLoop]
      simp [Nat.min_eq_right hmi]
  | cons b tl ih =>
      intro hrest it fl kept hmi
      obtain ⟨hb1, hb2, hb3, hb4, hb5⟩ := hrest b (List.mem_cons_self b tl)
      have hp0 : b.price ≠ 0 := by omega
      by_cases hit : it < mi
      · rw [marketLoop, if_pos ⟨hit, hra⟩, liftO_cSub, if_pos (Nat.le_of_lt hb3)]
        simp only [exbind_ok]
        rw [if_neg (by omega : ¬(b.quantity - b.filledquantity = 0)), if_neg hb2]
        simp only [marketFill, liftO_cDiv]
        rw [if_neg hp0]
        simp only [exbind_ok, expure_bind, Nat.div_eq_of_lt hb1, Nat.zero_min]
        simp only [liftO_cMul, Nat.mul_zero]
        rw [if_pos (Nat.zero_le U64MAX)]
        simp only [exbind_ok]
        simp only [liftO_cAdd, Nat.add_zero]
        rw [if_pos hb4]
        simp only [exbind_ok]
        simp only [marketConsume, liftO_cSub, liftO_cAdd, Nat.sub_zero, Nat.add_zero]
        rw [if_pos (Nat.zero_le ra)]
        simp only [exbind_ok]
        rw [if_pos hfq]
        simp only [exbind_ok, expure_bind]
        simp only [creditMarketCounterparty, if_true]
        rw [creditFirst_zero hacc hb5]
        simp only [exbind_ok, eq_self_iff_true, if_true]
        simp only [expure_bind]
        rw [if_neg (by omega : ¬(b.quantity ≤ b.filledquantity))]
        show marketLoop u tt OrderSide.Buy mi (it + 1) ra fq (fl ++ [(⟨b.id, b.user_key, b.price, 0⟩ : Fill)]) (b :: kept) tl s = Except.ok (kept.reverse ++ b :: tl, min mi (it + (b :: tl).length), ra, fq, fl ++ ((b :: tl).take (mi - it)).map (fun b => ⟨b.id, b.user_key, b.price, 0⟩), s)
        have htk : mi - it = (mi - (it + 1)) + 1 := by omega
        have hmn : it + (b :: tl).length = (it + 1) + tl.length := by
          simp only [List.length_cons]
          omega
        rw [htk, List.take_succ_cons, hmn]
        rw [ih (fun x hx => hrest x (List.mem_cons_of_mem b hx)) (it + 1)
          (fl ++ [(⟨b.id, b.user_key, b.price, 0⟩ : Fill)]) (b :: kept) (by omega)]
        simp [List.reverse_cons, List.append_assoc]
      · rw [marketLoop, if_neg (by omega : ¬(it < mi ∧ 0 < ra))]
        have hmn : min mi (it + (b :: tl).length) = it := by
          simp only [List.length_cons]
          omega
        have htk : mi - it = 0 := by omega
        rw [hmn, htk]
        simp

/-- C10: a market Buy whose remaining collateral is positive but below
every remaining eligible resting price computes a zero fill at each
step (`remaining / price = 0`), changing no balance and no resting
order, yet each step still consumes an iteration, still logs the
counter-party, and still requires that seller's ledger account - the
whole call fails with `SellerStatsAccountNotProvided` when it is
absent; the walk stops only at the end of the queue or at the
iteration cap, after which the full remaining amount is returned to
the requester (the complete call leaves the visible state identical). -/
theorem C10_zero_fill_walk :
    (∀ (ra p brq : Nat), 0 < ra → ra < p →
       marketFill OrderSide.Buy ra p brq = .ok 0) ∧
    (∀ (u : Nat) (tt : TokenType) (mi ra fq : Nat) (s : MarketSt)
       (rest : List Order) (it : Nat) (fl : List Fill) (kept : List Order),
       0 < ra → fq ≤ U64MAX →
       (∀ a ∈ s.remaining_accounts, a.claimable_collateral ≤ U64MAX) →
       (∀ b ∈ rest, ra < b.price ∧ b.user_key ≠ u ∧ b.filledquantity < b.quantity ∧
          b.filledquantity ≤ U64MAX ∧ ∃ a ∈ s.remaining_accounts, a.user = b.user_key) →
       it ≤ mi →
       marketLoop u tt OrderSide.Buy mi it ra fq fl kept rest s =
         .ok (kept.reverse ++ rest, min mi (it + rest.length), ra, fq,
              fl ++ (rest.take (mi - it)).map (fun b => ⟨b.id, b.user_key, b.price, 0⟩), s)) ∧
    marketOrder 0 1 7 .Buy .Yes 7 5 C10pre =
      .ok (C10pre, { iterations := 2, remaining := 7, fullfilled := 0,
                     fills := [⟨1, 2, 10, 0⟩, ⟨2, 3, 20, 0⟩] }) ∧
    marketOrder 0 1 7 .Buy .Yes 7 1 C10pre =
      .ok (C10pre, { iterations := 1, remaining := 7, fullfilled := 0,
                     fills := [⟨1, 2, 10, 0⟩] }) ∧
    marketOrder 0 1 7 .Buy .Yes 7 5 C10missPre = .error .SellerStatsAccountNotProvided := by
  refine ⟨?_, ?_, rfl, rfl, rfl⟩
  · intro ra p brq hra hlt
    have hp : p ≠ 0 := by omega
    simp [marketFill, liftO_cDiv, hp, Nat.div_eq_of_lt hlt, Nat.zero_min,
      exbind_ok, pure, Except.pure]
  · intro u tt mi ra fq s rest it fl kept hra hfq hacc hrest hmi
    exact marketLoop_zero_walk hra hfq hacc rest hrest it fl kept hmi

/-- Witness for C10: with 7 remaining collateral against resting sells
at 10 and 20, the per-step fill is 7/10 = 0, and the whole walk visits
both orders (two iterations, two zero-quantity fills) while leaving the
queue, every balance and the remaining amount untouched. -/
theorem C10_witness :
    marketFill OrderSide.Buy 7 10 5 = .ok 0 ∧
    marketLoop 1 TokenType.Yes OrderSide.Buy 5 0 7 0 [] [] [C10s1, C10s2] C10mid =
      .ok ([C10s1, C10s2], 2, 7, 0, [⟨1, 2, 10, 0⟩, ⟨2, 3, 20, 0⟩], C10mid) :=
  ⟨C10_zero_fill_walk.1 7 10 5 (by decide) (by decide),
   C10_zero_fill_walk.2.1 1 TokenType.Yes 5 7 0 C10mid [C10s1, C10s2] 0 [] []
     (by decide) (by decide) (by decide) (by decide) (by decide)⟩

/-- Writing back the matched queue: any queue of the result is either
the original queue at that position, or the written queue - and in the
latter case the position written is exactly the one the walk read. -/
theorem restingQueue_setMatchingQueue_pos (ob : OrderBook) (tt : TokenType)
    (side : OrderSide) (q : List Order) (tt2 : TokenType) (sd2 : OrderSide) :
    restingQueue (setMatchingQueue ob tt side q) tt2 sd2 = restingQueue ob tt2 sd2 ∨
    (restingQueue (setMatchingQueue ob tt side q) tt2 sd2 = q ∧
     matchingQueue ob tt side = restingQueue ob tt2 sd2) := by
  cases tt <;> cases side <;> cases tt2 <;> cases sd2 <;>
    simp [setMatchingQueue, restingQueue, matchingQueue]

set_option maxHeartbeats 1000000 in
/-- The market-order reservation phase (for an already-initialised
requester): book, candidate accounts and all claimable balances are
untouched; a Buy moves exactly `amt` from the requester's collateral
account, a Sell moves exactly `amt` from the requester's outcome
account. -/
theorem marketPrep_shape {now : Int} {u mid : Nat} {side : OrderSide}
    {tt : TokenType} {amt mi : Nat} {s s1 : MarketSt}
    (hu : s.user_stats_account.user ≠ 0)
    (h : marketPrep now u mid side tt amt mi s = .ok s1) :
    s1.orderbook = s.orderbook ∧
    s1.remaining_accounts = s.remaining_accounts ∧
    s1.user_stats_account.claimable_yes = s.user_stats_account.claimable_yes ∧
    s1.user_stats_account.claimable_no = s.user_stats_account.claimable_no ∧
    s1.user_stats_account.claimable_collateral = s.user_stats_account.claimable_collateral ∧
    (side = OrderSide.Buy → s1.user_collateral = s.user_collateral - amt ∧
       amt ≤ s.user_collateral ∧
       s1.user_outcome_yes = s.user_outcome_yes ∧
       s1.user_outcome_no = s.user_outcome_no) ∧
    (side = OrderSide.Sell → s1.user_collateral = s.user_collateral ∧
       outcomeAcctM s1 tt = outcomeAcctM s tt - amt ∧
       amt ≤ outcomeAcctM s tt) := by
  simp only [marketPrep, if_neg hu, transferTok, liftO_cAdd, liftO_cSub, bind,
    Except.bind, pure, Except.pure] at h
  repeat' split at h
  all_goals try exact (Except.noConfusion h)
  all_goals simp only [Except.ok.injEq] at h
  all_goals subst h
  all_goals try subst_eqs
  all_goals refine ⟨rfl, rfl, rfl, rfl, rfl, fun hside => ?_, fun hside => ?_⟩
  all_goals first
    | exact absurd hside (by decide)
    | exact ⟨rfl, by omega, rfl, rfl⟩
    | exact ⟨rfl, rfl, by omega⟩
    | (split_ifs at * <;> (try subst_eqs) <;> (try simp_all [outcomeAcctM]) <;> (try omega) <;> done)

/-- The market walk only removes or rewrites entries of the walked
queue, and only rewrites the supplied counter-party accounts. -/
theorem marketLoop_frame {u : Nat} {tt : TokenType} {side : OrderSide} {mi : Nat}
    {it ra fq : Nat} {fl : List Fill} {kept rest : List Order} {s : MarketSt}
    {q : List Order} {i2 r2 f2 : Nat} {fl2 : List Fill} {s2 : MarketSt}
    (h : marketLoop u tt side mi it ra fq fl kept rest s = .ok (q, i2, r2, f2, fl2, s2)) :
    q.length ≤ kept.length + rest.length ∧
    s2 = { s with remaining_accounts := s2.remaining_accounts } := by
  induction rest generalizing it ra fq fl kept s with
  | nil =>
      simp only [marketLoop, Except.ok.injEq, Prod.mk.injEq] at h
      obtain ⟨hq, -, -, -, -, hs⟩ := h
      subst hq hs
      exact ⟨by simp, rfl⟩
  | cons b tl ih =>
      rw [marketLoop] at h
      by_cases hc : it < mi ∧ 0 < ra
      · rw [if_pos hc] at h
        rw [liftO_cSub] at h
        by_cases hbl : b.filledquantity ≤ b.quantity
        · rw [if_pos hbl] at h
          simp only [exbind_ok] at h
          by_cases hz : b.quantity - b.filledquantity = 0
          · rw [if_pos hz] at h
            obtain ⟨h1, h2⟩ := ih h
            exact ⟨by simp at h1 ⊢; omega, h2⟩
          · rw [if_neg hz] at h
            by_cases hbu : b.user_key = u
            · rw [if_pos hbu] at h
              obtain ⟨h1, h2⟩ := ih h
              exact ⟨by simp at h1 ⊢; omega, h2⟩
            · rw [if_neg hbu] at h
              cases hmf : marketFill side ra b.price (b.quantity - b.filledquantity) with
              | error e =>
                  rw [hmf] at h
                  simp only [exbind_err] at h
                  cases h
              | ok mq =>
                  rw [hmf] at h
                  simp only [exbind_ok] at h
                  rw [liftO_cMul] at h
                  by_cases hcm : b.price * mq ≤ U64MAX
                  · rw [if_pos hcm] at h
                    simp only [exbind_ok] at h
                    rw [liftO_cAdd] at h
                    by_cases hcab : b.filledquantity + mq ≤ U64MAX
                    · rw [if_pos hcab] at h
                      simp only [exbind_ok] at h
                      cases hcons : marketConsume side ra fq mq (b.price * mq) with
                      | error e =>
                          rw [hcons] at h
                          simp only [exbind_err] at h
                          cases h
                      | ok pr =>
                          obtain ⟨r3, f3⟩ := pr
                          rw [hcons] at h
                          simp only [exbind_ok] at h
                          cases hcc : creditMarketCounterparty tt side b.user_key mq
                              (b.price * mq) s with
                          | error e =>
                              rw [hcc] at h
                              simp only [exbind_err] at h
                              cases h
                          | ok s3 =>
                              rw [hcc] at h
                              simp only [exbind_ok] at h
                              have hs3 : s3 = { s with remaining_accounts := s3.remaining_accounts } :=
                                creditMarketCounterparty_shape hcc
                              have hstep : q.length ≤ kept.length + (b :: tl).length ∧
                                  s2 = { s3 with remaining_accounts := s2.remaining_accounts } := by
                                split at h
                                · obtain ⟨h1, h2⟩ := ih h
                                  exact ⟨by simp at h1 ⊢; omega, h2⟩
                                · obtain ⟨h1, h2⟩ := ih h
                                  exact ⟨by simp at h1 ⊢; omega, h2⟩
                              refine ⟨hstep.1, ?_⟩
                              rw [hstep.2, hs3]
                    · rw [if_neg hcab] at h
                      simp only [exbind_err] at h
                      cases h
                  · rw [if_neg hcm] at h
                    simp only [exbind_err] at h
                    cases h
        · rw [if_neg hbl] at h
          simp only [exbind_err] at h
          cases h
      · rw [if_neg hc] at h
        simp only [Except.ok.injEq, Prod.mk.injEq] at h
        obtain ⟨hq, -, -, -, -, hs⟩ := h
        subst hq hs
        exact ⟨by simp, rfl⟩

/-- The final distribution of a market order: book, candidate accounts
and claimable balances untouched; a Buy hands the unconsumed remainder
back to the requester's collateral account, a Sell hands it back to the
requester's outcome account. -/
theorem marketFinish_shape {side : OrderSide} {tt : TokenType}
    {amt r2 f2 : Nat} {s s2 : MarketSt}
    (h : marketFinish side tt amt r2 f2 s = .ok s2) :
    s2.orderbook = s.orderbook ∧
    s2.remaining_accounts = s.remaining_accounts ∧
    s2.user_stats_account.claimable_yes = s.user_stats_account.claimable_yes ∧
    s2.user_stats_account.claimable_no = s.user_stats_account.claimable_no ∧
    s2.user_stats_account.claimable_collateral = s.user_stats_account.claimable_collateral ∧
    (side = OrderSide.Buy → s2.user_collateral = s.user_collateral + r2) ∧
    (side = OrderSide.Sell → outcomeAcctM s2 tt = outcomeAcctM s tt + r2) := by
  simp only [marketFinish, transferTok, liftO_cSub, bind, Except.bind, pure,
    Except.pure] at h
  repeat' split at h
  all_goals try exact (Except.noConfusion h)
  all_goals simp only [Except.ok.injEq] at h
  all_goals subst h
  all_goals try subst_eqs
  all_goals refine ⟨rfl, rfl, rfl, rfl, rfl, fun hside => ?_, fun hside => ?_⟩
  all_goals first
    | exact absurd hside (by decide)
    | rfl
    | omega
    | (split_ifs at * <;> (try subst_eqs) <;> (try simp_all [outcomeAcctM]) <;> (try omega) <;> done)

/-- A successful `marketOrder` run decomposes into its three phases:
reservation, the walk, and the final distribution. -/
theorem marketOrder_ok_decomp {now : Int} {u mid : Nat} {side : OrderSide}
    {tt : TokenType} {amt mi : Nat} {s s2 : MarketSt} {r : MarketResult}
    (h : marketOrder now u mid side tt amt mi s = .ok (s2, r)) :
    ∃ s1 q2 i2 r2 f2 fl2 sM,
      marketPrep now u mid side tt amt mi s = .ok s1 ∧
      marketLoop u tt side mi 0 amt 0 [] [] (matchingQueue s1.orderbook tt side) s1 =
        .ok (q2, i2, r2, f2, fl2, sM) ∧
      marketFinish side tt amt r2 f2
        { sM with orderbook := setMatchingQueue sM.orderbook tt side q2 } = .ok s2 ∧
      r = { iterations := i2, remaining := r2, fullfilled := f2, fills := fl2 } := by
  unfold marketOrder at h
  cases hprep : marketPrep now u mid side tt amt mi s with
  | error e => rw [hprep] at h; simp only [exbind_err] at h; cases h
  | ok s1 =>
    rw [hprep] at h
    simp only [exbind_ok] at h
    cases hml : marketLoop u tt side mi 0 amt 0 [] []
        (matchingQueue s1.orderbook tt side) s1 with
    | error e => rw [hml] at h; simp only [exbind_err] at h; cases h
    | ok sext =>
      obtain ⟨q2, i2, r2, f2, fl2, sM⟩ := sext
      rw [hml] at h
      simp only [exbind_ok] at h
      cases hfin : marketFinish side tt amt r2 f2
          { sM with orderbook := setMatchingQueue sM.orderbook tt side q2 } with
      | error e => rw [hfin] at h; simp only [exbind_err] at h; cases h
      | ok sF =>
        rw [hfin] at h
        simp only [exbind_ok, pure, Except.pure] at h
        cases h
        exact ⟨s1, q2, i2, r2, f2, fl2, sM, rfl, hml, hfin, rfl⟩

/-- C6: the per-step market fill is `min(remaining / price, resting
remainder)` for a Buy (integer division) and `min(remaining, resting
remainder)` for a Sell; and a whole successful market order never grows
any queue, never touches any claimable balance of the requester, and
hands the unconsumed remainder straight back to the requester's
available balance (collateral for a Buy, outcome tokens for a Sell). -/
theorem C6_market_fill_and_remainder :
    (∀ (ra p brq : Nat), p ≠ 0 →
       marketFill OrderSide.Buy ra p brq = .ok (min (ra / p) brq)) ∧
    (∀ (ra p brq : Nat), marketFill OrderSide.Sell ra p brq = .ok (min ra brq)) ∧
    (∀ (now : Int) (u mid : Nat) (side : OrderSide) (tt : TokenType)
       (amt mi : Nat) (s s2 : MarketSt) (r : MarketResult),
       marketOrder now u mid side tt amt mi s = .ok (s2, r) →
       s.user_stats_account.user ≠ 0 →
       (∀ tt2 sd2, (restingQueue s2.orderbook tt2 sd2).length ≤
          (restingQueue s.orderbook tt2 sd2).length) ∧
       s2.user_stats_account.claimable_yes = s.user_stats_account.claimable_yes ∧
       s2.user_stats_account.claimable_no = s.user_stats_account.claimable_no ∧
       s2.user_stats_account.claimable_collateral = s.user_stats_account.claimable_collateral ∧
       (side = OrderSide.Buy → amt ≤ s.user_collateral ∧
          s2.user_collateral = s.user_collateral - amt + r.remaining) ∧
       (side = OrderSide.Sell → amt ≤ outcomeAcctM s tt ∧
          outcomeAcctM s2 tt = outcomeAcctM s tt - amt + r.remaining)) := by
  refine ⟨?_, ?_, ?_⟩
  · intro ra p brq hp
    simp [marketFill, liftO_cDiv, hp, exbind_ok, pure, Except.pure]
  · intro ra p brq
    rfl
  · intro now u mid side tt amt mi s s2 r h hu
    obtain ⟨s1, q2, i2, r2, f2, fl2, sM, hprep, hml, hfin, hr⟩ := marketOrder_ok_decomp h
    obtain ⟨hp1, hp2, hp3, hp4, hp5, hpB, hpS⟩ := marketPrep_shape hu hprep
    obtain ⟨hl1, hl2⟩ := marketLoop_frame hml
    obtain ⟨hf1, hf2, hf3, hf4, hf5, hfB, hfS⟩ := marketFinish_shape hfin
    have hbM : sM.orderbook = s1.orderbook := by rw [hl2]
    have hstM : sM.user_stats_account = s1.user_stats_account := by rw [hl2]
    have hucM : sM.user_collateral = s1.user_collateral := by rw [hl2]
    have hoyM : sM.user_outcome_yes = s1.user_outcome_yes := by rw [hl2]
    have honM : sM.user_outcome_no = s1.user_outcome_no := by rw [hl2]
    refine ⟨?_, ?_, ?_, ?_, ?_, ?_⟩
    · intro tt2 sd2
      rw [hf1]
      rcases restingQueue_setMatchingQueue_pos sM.orderbook tt side q2 tt2 sd2 with he | ⟨he, hpos⟩
      · rw [he, hbM, hp1]
      · rw [he]
        have hq2 : q2.length ≤ (matchingQueue s1.orderbook tt side).length := by
          simpa using hl1
        rw [hbM] at hpos
        rw [hpos, hp1] at hq2
        exact hq2
    · rw [hf3, hstM, hp3]
    · rw [hf4, hstM, hp4]
    · rw [hf5, hstM, hp5]
    · intro hside
      obtain ⟨hb1, hb2, -, -⟩ := hpB hside
      refine ⟨hb2, ?_⟩
      rw [hfB hside, hucM, hb1]
      have hrr : r.remaining = r2 := by rw [hr]
      rw [hrr]
    · intro hside
      obtain ⟨-, hs2, hs3⟩ := hpS hside
      refine ⟨hs3, ?_⟩
      have hoM : outcomeAcctM sM tt = outcomeAcctM s1 tt := by
        cases tt <;> simp [outcomeAcctM, hoyM, honM]
      have hfS2 : outcomeAcctM s2 tt = outcomeAcctM sM tt + r2 := hfS hside
      rw [hfS2, hoM, hs2]
      have hrr : r.remaining = r2 := by rw [hr]
      rw [hrr]

/-- Witness for C6: concrete per-step fills (a buy with 9 collateral
against price 4 affords 9/4 = 2 of the 3 resting; a sell of 6 against
9 resting fills 6), and the C10 full Buy run returns its whole 7
remainder to the requester's collateral balance without touching any
queue or claimable. -/
theorem C6_witness :
    marketFill OrderSide.Buy 9 4 3 = .ok 2 ∧
    marketFill OrderSide.Sell 6 2 9 = .ok 6 ∧
    ((restingQueue C10pre.orderbook TokenType.Yes OrderSide.Sell).length ≤
      (restingQueue C10pre.orderbook TokenType.Yes OrderSide.Sell).length) ∧
    (7 ≤ C10pre.user_collateral ∧
     C10pre.user_collateral = C10pre.user_collateral - 7 +
       ({ iterations := 2, remaining := 7, fullfilled := 0,
          fills := [⟨1, 2, 10, 0⟩, ⟨2, 3, 20, 0⟩] } : MarketResult).remaining) :=
  ⟨C6_market_fill_and_remainder.1 9 4 3 (by decide),
   C6_market_fill_and_remainder.2.1 6 2 9,
   (C6_market_fill_and_remainder.2.2 0 1 7 OrderSide.Buy TokenType.Yes 7 5 C10pre
      C10pre { iterations := 2, remaining := 7, fullfilled := 0,
               fills := [⟨1, 2, 10, 0⟩, ⟨2, 3, 20, 0⟩] } rfl (by decide)).1
     TokenType.Yes OrderSide.Sell,
   (C6_market_fill_and_remainder.2.2 0 1 7 OrderSide.Buy TokenType.Yes 7 5 C10pre
      C10pre { iterations := 2, remaining := 7, fullfilled := 0,
               fills := [⟨1, 2, 10, 0⟩, ⟨2, 3, 20, 0⟩] } rfl (by decide)).2.2.2.2.1 rfl⟩

end StanX

